import Mathlib

/-! Verification development for the URL classifier and caches of the
video-downloader repository (validators.py, video.py, downloader.py).

Every definition is a shallow embedding of the corresponding Python
source.  Machine integers do not occur (Python integers are unbounded),
times are modelled as rationals, fallible operations return `Option` or
`Except`, and dictionaries are modelled as insertion-ordered association
lists, which is exactly the observable behaviour of CPython dicts. -/

namespace VDSpec

/-! ### Regular expressions

Model of Python compiled patterns and `pattern.match(url)`.  Every
pattern string in `URL_PATTERNS` is anchored with a leading `^` and a
trailing `$`, so a successful `re.match` is a full-string match.  A
pattern is modelled as a regular-expression syntax tree over characters;
bracket classes and the classes `\w`, `\d`, `\S` and `.` become boolean
character predicates (their ASCII meaning, which agrees with Python on
the ASCII URLs that appear in the theorems below).  Matching is by
Brzozowski derivatives. -/

inductive Regex where
  | emptyset : Regex
  | emptystr : Regex
  | cls (p : Char → Bool) : Regex
  | cat (r1 r2 : Regex) : Regex
  | alt (r1 r2 : Regex) : Regex
  | star (r : Regex) : Regex

namespace Regex

/-- Whether the language of the pattern contains the empty string. -/
def nullable : Regex → Bool
  | emptyset => false
  | emptystr => true
  | cls _ => false
  | cat a b => nullable a && nullable b
  | alt a b => nullable a || nullable b
  | star _ => true

/-- Brzozowski derivative of a pattern by one character. -/
def derive : Regex → Char → Regex
  | emptyset, _ => emptyset
  | emptystr, _ => emptyset
  | cls p, c => if p c then emptystr else emptyset
  | cat a b, c =>
      if nullable a then alt (cat (derive a c) b) (derive b c)
      else cat (derive a c) b
  | alt a b, c => alt (derive a c) (derive b c)
  | star r, c => cat (derive r c) (star r)

/-- Whether the character list is in the language of the pattern. -/
def matchList (r : Regex) (cs : List Char) : Bool :=
  nullable (cs.foldl derive r)

/-- Python `pattern.match(url)` for a `^...$`-anchored pattern: a
full-string match of `url`. -/
def fullmatch (r : Regex) (s : String) : Bool :=
  matchList r s.data

/-! Combinators used to transliterate the concrete pattern strings. -/

/-- A single literal character. -/
def chr (c : Char) : Regex := cls (fun d => d == c)

/-- A literal string (a sequence of single-character patterns). -/
def lit (s : String) : Regex := s.data.foldr (fun c r => cat (chr c) r) emptystr

/-- Pattern `(?:r)?` -/
def opt (r : Regex) : Regex := alt r emptystr

/-- Pattern `r+` -/
def plus (r : Regex) : Regex := cat r (star r)

/-- Pattern `r{n}` -/
def rep : Nat → Regex → Regex
  | 0, _ => emptystr
  | n + 1, r => cat r (rep n r)

/-- Sequencing of a list of patterns. -/
def catL (l : List Regex) : Regex := l.foldr cat emptystr

end Regex

/-! Character classes, restricted to their ASCII meaning. -/

/-- Python `\w` (ASCII part): letters, digits and underscore. -/
def wordChar (c : Char) : Bool := c.isAlphanum || c == '_'

/-- The bracket class `[\w-]`. -/
def wDash (c : Char) : Bool := wordChar c || c == '-'

/-- The bracket class `[\w\.-]`. -/
def wDotDash (c : Char) : Bool := wordChar c || c == '.' || c == '-'

/-- Python `\d`. -/
def digitC (c : Char) : Bool := c.isDigit

/-- Python `\S` (complement of the ASCII whitespace class). -/
def nonSpace (c : Char) : Bool :=
  !(c == ' ' || c == '\t' || c == '\n' || c == '\r' || c == '\x0b' || c == '\x0c')

/-- Python `.` (any character except a newline). -/
def dotC (c : Char) : Bool := c != '\n'

open Regex in
/-- Pattern `^https?://` -/
def httpS : Regex := catL [lit "http", opt (chr 's'), lit "://"]

open Regex in
/-- Pattern `(?:www\.)?` -/
def wwwOpt : Regex := opt (lit "www.")

open Regex in
/-- Pattern `(?:c\S*)?` for a separator character `c` (the trailing query-string
groups `(?:&\S*)?` and `(?:\?\S*)?` of the patterns). -/
def qTail (c : Char) : Regex := opt (cat (chr c) (star (cls nonSpace)))

/-! The eleven YouTube patterns of `VideoURL.URL_PATTERNS` in
validators.py, transliterated one for one. -/

open Regex in
/-- Pattern `^https?://(?:www\.)?youtube\.com/watch\?v=[\w-]{11}(?:&\S*)?$` -/
def yt01 : Regex :=
  catL [httpS, wwwOpt, lit "youtube.com/watch?v=", rep 11 (cls wDash), qTail '&']

open Regex in
/-- Pattern `^https?://youtu\.be/[\w-]{11}(?:\?\S*)?$` -/
def yt02 : Regex :=
  catL [httpS, lit "youtu.be/", rep 11 (cls wDash), qTail '?']

open Regex in
/-- Pattern `^https?://(?:www\.)?youtube\.com/shorts/[\w-]{11}(?:\?\S*)?$` -/
def yt03 : Regex :=
  catL [httpS, wwwOpt, lit "youtube.com/shorts/", rep 11 (cls wDash), qTail '?']

open Regex in
/-- Pattern `^https?://(?:www\.)?youtube\.com/embed/[\w-]{11}(?:\?\S*)?$` -/
def yt04 : Regex :=
  catL [httpS, wwwOpt, lit "youtube.com/embed/", rep 11 (cls wDash), qTail '?']

open Regex in
/-- Pattern `^https?://(?:www\.)?youtube\.com/playlist\?list=[\w-]+(?:&\S*)?$` -/
def yt05 : Regex :=
  catL [httpS, wwwOpt, lit "youtube.com/playlist?list=", plus (cls wDash), qTail '&']

open Regex in
/-- Pattern `^https?://(?:www\.)?youtube\.com/(?:channel|c|user)/[\w-]+(?:/\S*)?$` -/
def yt06 : Regex :=
  catL [httpS, wwwOpt, lit "youtube.com/",
    alt (lit "channel") (alt (chr 'c') (lit "user")), chr '/',
    plus (cls wDash), opt (cat (chr '/') (star (cls nonSpace)))]

open Regex in
/-- Pattern `^https?://(?:www\.)?youtube\.com/\S+[\?&]v=[\w-]{11}(?:&\S*)?$` -/
def yt07 : Regex :=
  catL [httpS, wwwOpt, lit "youtube.com/", plus (cls nonSpace),
    cls (fun c => c == '?' || c == '&'), lit "v=", rep 11 (cls wDash), qTail '&']

open Regex in
/-- Pattern `^https?://music\.youtube\.com/watch\?v=[\w-]{11}(?:&\S*)?$` -/
def yt08 : Regex :=
  catL [httpS, lit "music.youtube.com/watch?v=", rep 11 (cls wDash), qTail '&']

open Regex in
/-- Pattern `^https?://(?:www\.)?youtube\.com/tv#/watch/video/control\?v=[\w-]{11}$` -/
def yt09 : Regex :=
  catL [httpS, wwwOpt, lit "youtube.com/tv#/watch/video/control?v=", rep 11 (cls wDash)]

open Regex in
/-- Pattern `^https?://music\.youtube\.com/playlist\?list=[\w-]+(?:&\S*)?$` -/
def yt10 : Regex :=
  catL [httpS, lit "music.youtube.com/playlist?list=", plus (cls wDash), qTail '&']

open Regex in
/-- Pattern `^https?://(?:www\.)?youtube\.com/clip/[\w-]+(?:\?\S*)?$` -/
def yt11 : Regex :=
  catL [httpS, wwwOpt, lit "youtube.com/clip/", plus (cls wDash), qTail '?']

/-! The eight VK patterns. -/

open Regex in
/-- Pattern `^https?://(?:www\.)?vk\.com/video-?\d+_\d+(?:\?\S*)?$` -/
def vk01 : Regex :=
  catL [httpS, wwwOpt, lit "vk.com/video", opt (chr '-'), plus (cls digitC),
    chr '_', plus (cls digitC), qTail '?']

open Regex in
/-- Pattern `^https?://(?:www\.)?vkvideo\.ru/video-?\d+_\d+(?:\?\S*)?$` -/
def vk02 : Regex :=
  catL [httpS, wwwOpt, lit "vkvideo.ru/video", opt (chr '-'), plus (cls digitC),
    chr '_', plus (cls digitC), qTail '?']

open Regex in
/-- Pattern `^https?://(?:www\.)?vk\.com/(?:video|clip)-?\d+(?:_\d+)?(?:\?\S*)?$` -/
def vk03 : Regex :=
  catL [httpS, wwwOpt, lit "vk.com/", alt (lit "video") (lit "clip"),
    opt (chr '-'), plus (cls digitC), opt (cat (chr '_') (plus (cls digitC))), qTail '?']

open Regex in
/-- Pattern `^https?://(?:www\.)?vk\.com/videos-?\d+(?:\?\S*)?$` -/
def vk04 : Regex :=
  catL [httpS, wwwOpt, lit "vk.com/videos", opt (chr '-'), plus (cls digitC), qTail '?']

open Regex in
/-- Pattern `^https?://(?:www\.)?vk\.com/\S+$` -/
def vk05 : Regex :=
  catL [httpS, wwwOpt, lit "vk.com/", plus (cls nonSpace)]

open Regex in
/-- Pattern `^https?://(?:www\.)?vk\.com/clips-?\d+(?:\?\S*)?$` -/
def vk06 : Regex :=
  catL [httpS, wwwOpt, lit "vk.com/clips", opt (chr '-'), plus (cls digitC), qTail '?']

open Regex in
/-- Pattern `^https?://(?:m\.)?vk\.com/video(?:_ext)?\.php\?.*oid=(?:-?\d+).*id=\d+.*$` -/
def vk07 : Regex :=
  catL [httpS, opt (lit "m."), lit "vk.com/video", opt (lit "_ext"), lit ".php?",
    star (cls dotC), lit "oid=", opt (chr '-'), plus (cls digitC),
    star (cls dotC), lit "id=", plus (cls digitC), star (cls dotC)]

open Regex in
/-- Pattern `^https?://(?:www\.)?vk\.com/video_ext\.php\?.*oid=(?:-?\d+).*id=\d+.*$` -/
def vk08 : Regex :=
  catL [httpS, wwwOpt, lit "vk.com/video_ext.php?",
    star (cls dotC), lit "oid=", opt (chr '-'), plus (cls digitC),
    star (cls dotC), lit "id=", plus (cls digitC), star (cls dotC)]

/-! The two RuTube patterns. -/

open Regex in
/-- Pattern `^https?://(?:www\.)?rutube\.ru/video/[\w-]{32}/?(?:\?\S*)?$` -/
def rt01 : Regex :=
  catL [httpS, wwwOpt, lit "rutube.ru/video/", rep 32 (cls wDash), opt (chr '/'), qTail '?']

open Regex in
/-- Pattern `^https?://(?:www\.)?rutube\.ru/play/embed/[\w-]{32}/?(?:\?\S*)?$` -/
def rt02 : Regex :=
  catL [httpS, wwwOpt, lit "rutube.ru/play/embed/", rep 32 (cls wDash), opt (chr '/'), qTail '?']

/-! The two TikTok patterns. -/

open Regex in
/-- Pattern `^https?://(?:www\.)?tiktok\.com/@[\w\.-]+/video/\d+(?:\?\S*)?$` -/
def tk01 : Regex :=
  catL [httpS, wwwOpt, lit "tiktok.com/@", plus (cls wDotDash), lit "/video/",
    plus (cls digitC), qTail '?']

open Regex in
/-- Pattern `^https?://(?:vm|vt)\.tiktok\.com/[\w\.-]+/?(?:\?\S*)?$` -/
def tk02 : Regex :=
  catL [httpS, alt (lit "vm") (lit "vt"), lit ".tiktok.com/",
    plus (cls wDotDash), opt (chr '/'), qTail '?']

/-- The per-service pattern lists of `VideoURL.URL_PATTERNS` in
validators.py (as compiled patterns), in dict insertion order. -/
def ytPatterns : List Regex := [yt01, yt02, yt03, yt04, yt05, yt06, yt07, yt08, yt09, yt10, yt11]

def vkPatterns : List Regex := [vk01, vk02, vk03, vk04, vk05, vk06, vk07, vk08]

def rtPatterns : List Regex := [rt01, rt02]

def tkPatterns : List Regex := [tk01, tk02]

/-! ### Pattern Matcher (`VideoURL._init_combined_patterns`)

For each service the source joins the pattern strings with `'|'` into one
alternation (each constituent wrapped in a non-capturing group, which does
not change its language) and compiles it; if that compilation failed it
would fall back to a list of individually compiled `(pattern, compiled)`
pairs.  Joining a non-empty list with `'|'` is a left-nested alternation. -/

open Regex in
/-- The alternation built by `'|'.join(f'(?:{pattern})' for pattern in patterns)`.
The empty case never arises: every service has at least one pattern. -/
def combine : List Regex → Regex
  | [] => emptyset
  | p :: ps => ps.foldl alt p

/-- A compiled service entry of `VideoURL._compiled_patterns`: either the
combined alternation (`re.Pattern` branch of the source) or the fallback
list of individually compiled patterns. -/
inductive CompiledForm where
  | combined (r : Regex) : CompiledForm
  | separate (ps : List (String × Regex)) : CompiledForm

/-- Matching a URL against a compiled service entry: the
`isinstance(compiled_pattern, re.Pattern)` dispatch in
`get_service_name` and `is_valid`. -/
def CompiledForm.matchUrl : CompiledForm → String → Bool
  | .combined r, url => Regex.fullmatch r url
  | .separate ps, url => ps.any (fun pr => Regex.fullmatch pr.2 url)

/-- Model of `VideoURL._compiled_patterns` after module import: the combined
alternation of every service compiles successfully (an alternation of
individually valid patterns), so every service takes the `re.Pattern`
branch.  Dict insertion order of `URL_PATTERNS`. -/
def compiledPatterns : List (String × CompiledForm) :=
  [("YouTube", .combined (combine ytPatterns)),
   ("VK", .combined (combine vkPatterns)),
   ("RuTube", .combined (combine rtPatterns)),
   ("TikTok", .combined (combine tkPatterns))]

/-! ### Ordered dictionaries

CPython dicts preserve insertion order; assignment to an existing key
updates the value in place (keeping its position), assignment to a fresh
key appends.  Modelled as association lists. -/

/-- Model of `d[k]` as a total lookup. -/
def dictLookup {α : Type} (l : List (String × α)) (k : String) : Option α :=
  (l.find? (fun e => e.1 == k)).map (fun e => e.2)

/-- Model of `d[k] = v`: update in place if present, append otherwise. -/
def dictSet {α : Type} (l : List (String × α)) (k : String) (v : α) : List (String × α) :=
  if l.any (fun e => e.1 == k) then
    l.map (fun e => if e.1 == k then (k, v) else e)
  else l ++ [(k, v)]

/-- Model of `del d[k]` (on the unique-key lists that model dicts). -/
def dictDel {α : Type} (l : List (String × α)) (k : String) : List (String × α) :=
  l.filter (fun e => !(e.1 == k))

/-- Whether `needle` occurs as a contiguous run inside `hay`. -/
def listInfix (needle : List Char) : List Char → Bool
  | [] => needle.isEmpty
  | s@(_ :: rest) => needle.isPrefixOf s || listInfix needle rest

/-- Python `needle in hay` on strings: substring containment. -/
def strIn (needle hay : String) : Bool :=
  listInfix needle.data hay.data

/-- Python `s.startswith(p)`. -/
def pyStartsWith (s p : String) : Bool :=
  p.data.isPrefixOf s.data

/-- Python `s[n:]`. -/
def pyDrop (n : Nat) (s : String) : String :=
  String.mk (s.data.drop n)

/-- Scanning loop of Python `s.split(sep)` for a non-empty separator,
fuelled by the input length (one character or one separator consumed per
step, so the fuel never runs out on the inputs used). -/
def splitFuel (sep : List Char) : Nat → List Char → List Char → List (List Char)
  | 0, s, acc => [acc.reverse ++ s]
  | _ + 1, [], acc => [acc.reverse]
  | f + 1, c :: rest, acc =>
      if sep.isPrefixOf (c :: rest) then
        acc.reverse :: splitFuel sep f ((c :: rest).drop sep.length) []
      else splitFuel sep f rest (c :: acc)

/-- Python `s.split(sep)` (non-empty separator): `"a.b" → ["a", "b"]`,
`"" → [""]`, left-to-right non-overlapping occurrences. -/
def pySplit (s sep : String) : List String :=
  (splitFuel sep.data (s.data.length + 1) s.data []).map String.mk

/-! ### Domain Trie (`class DomainTrie`, validators.py)

A trie node is a Python dict mapping one reversed domain label to a child
node, with the sentinel key `'_service'` carrying the annotation.
Modelled as an annotation plus a labelled list of children (no registered
label is the sentinel string). -/

inductive DTrie where
  | node (svc : Option String) (children : List (String × DTrie))

namespace DTrie

def svcOf : DTrie → Option String
  | node a _ => a

def childrenOf : DTrie → List (String × DTrie)
  | node _ ch => ch

def lookupChild (ch : List (String × DTrie)) (p : String) : Option DTrie :=
  (ch.find? (fun e => e.1 == p)).map (fun e => e.2)

/-- Replace the child at an existing label, keeping its position (dict
assignment to a present key). -/
def replaceChild (ch : List (String × DTrie)) (p : String) (t : DTrie) : List (String × DTrie) :=
  ch.map (fun e => if e.1 == p then (p, t) else e)

/-- The node-walking loop of `add_domain`: walk/create one node per part
and mark the final node with the service (overwriting any previous
annotation, keeping children). -/
def insertParts : DTrie → List String → String → DTrie
  | node _ ch, [], svc => node (some svc) ch
  | node a ch, p :: ps, svc =>
      match lookupChild ch p with
      | some t => node a (replaceChild ch p (insertParts t ps svc))
      | none => node a (ch ++ [(p, insertParts (node none []) ps svc)])

/-- Model of `DomainTrie.add_domain(domain, service)`: split the domain into
labels, reverse them, walk/create and annotate. -/
def addDomain (t : DTrie) (domain service : String) : DTrie :=
  insertParts t ((pySplit domain ".").reverse) service

/-- The search loop of `find_service`: descend one label at a time and
return as soon as the node just reached carries an annotation; stop with
no result when a label has no child or the labels run out. -/
def walkAux : DTrie → List String → Option String
  | _, [] => none
  | t, p :: ps =>
      match lookupChild t.childrenOf p with
      | none => none
      | some child =>
          match child.svcOf with
          | some svc => some svc
          | none => walkAux child ps

/-- Specification helper: the annotations carried by the nodes visited
along the maximal descending walk, ordered from shallowest to deepest. -/
def annotationsAlong : DTrie → List String → List String
  | _, [] => []
  | t, p :: ps =>
      match lookupChild t.childrenOf p with
      | none => []
      | some child =>
          match child.svcOf with
          | some svc => svc :: annotationsAlong child ps
          | none => annotationsAlong child ps

end DTrie

/-- The miss / unknown-service result string of the source. -/
def unknownService : String := "Неизвестный сервис"

/-- Host extraction of `find_service`: the text between the first scheme
separator and the next path separator, with one leading `www.` label
stripped.  (No operation here can raise, so the `except` branch of the
source is dead.) -/
def hostOf (url : String) : String :=
  let domain :=
    if strIn "://" url then (pySplit ((pySplit url "://").getD 1 "") "/").headD ""
    else ((pySplit url "/").headD "")
  if pyStartsWith domain "www." then pyDrop 4 domain else domain

/-- Model of `DomainTrie.find_service(url)`. -/
def findService (t : DTrie) (url : String) : String :=
  (DTrie.walkAux t ((pySplit (hostOf url) ".").reverse)).getD unknownService

/-- The static `domain_map` of `VideoURL._init_domain_trie` (identical to
the literal in video.py's `get_service_name`), in insertion order. -/
def domainMap : List (String × String) :=
  [("youtube.com", "YouTube"),
   ("youtu.be", "YouTube"),
   ("music.youtube.com", "YouTube"),
   ("vk.com", "VK"),
   ("vkvideo.ru", "VK"),
   ("rutube.ru", "RuTube"),
   ("ok.ru", "Одноклассники"),
   ("mail.ru", "Mail.ru"),
   ("my.mail.ru", "Mail.ru"),
   ("bilibili.com", "Bilibili"),
   ("b23.tv", "Bilibili"),
   ("tiktok.com", "TikTok"),
   ("vm.tiktok.com", "TikTok"),
   ("vt.tiktok.com", "TikTok"),
   ("twitch.tv", "Twitch"),
   ("clips.twitch.tv", "Twitch"),
   ("vimeo.com", "Vimeo"),
   ("player.vimeo.com", "Vimeo"),
   ("facebook.com", "Facebook"),
   ("fb.watch", "Facebook"),
   ("instagram.com", "Instagram"),
   ("t.me", "Telegram"),
   ("dailymotion.com", "Dailymotion"),
   ("coub.com", "Coub")]

/-- Model of `VideoURL._domain_trie` after `_init_domain_trie` has run (it runs at
module import). -/
def domainTrie : DTrie :=
  domainMap.foldl (fun t e => DTrie.addDomain t e.1 e.2) (DTrie.node none [])

/-! ### Classification Cache (`class ServiceCache`, validators.py)

URL to service name with TTL, over two parallel dicts `cache` and
`timestamps`.  `time.time()` values are modelled as rationals.  Reading
`self.timestamps[url]` when the two dicts are out of sync would raise a
`KeyError`, which the model makes explicit. -/

inductive PyErr where
  | keyError : PyErr
  | unboundLocal : PyErr
deriving DecidableEq

structure SCache where
  cache : List (String × String)
  timestamps : List (String × ℚ)
  maxSize : Nat
  ttl : ℚ

namespace SCache

/-- Model of `ServiceCache.get(url)` at current time `now`: a hit while the entry
is younger than `ttl`, otherwise the stale entry is deleted and the
lookup is a miss (`None`). -/
def get (s : SCache) (url : String) (now : ℚ) : Except PyErr (Option String × SCache) :=
  match dictLookup s.cache url with
  | some svc =>
      match dictLookup s.timestamps url with
      | some ts =>
          if now - ts < s.ttl then .ok (some svc, s)
          else .ok (none,
            { s with cache := dictDel s.cache url, timestamps := dictDel s.timestamps url })
      | none => .error .keyError
  | none => .ok (none, s)

/-- Model of `ServiceCache._cleanup_old_entries()`: drop expired entries, then if
still at capacity drop the oldest entries with a 100-entry margin.
(`del` on the parallel dicts is modelled by filtering both.) -/
def cleanupOld (s : SCache) (now : ℚ) : SCache :=
  let expired := (s.timestamps.filter (fun e => s.ttl ≤ now - e.2)).map (fun e => e.1)
  let s1 : SCache :=
    { s with cache := s.cache.filter (fun e => !(expired.contains e.1)),
             timestamps := s.timestamps.filter (fun e => !(expired.contains e.1)) }
  if s1.cache.length ≥ s1.maxSize then
    let sorted := s1.timestamps.mergeSort (fun a b => decide (a.2 ≤ b.2))
    let toRemove : Int := (sorted.length : Int) - (s1.maxSize : Int) + 100
    let removeKeys := (sorted.take toRemove.toNat).map (fun e => e.1)
    { s1 with cache := s1.cache.filter (fun e => !(removeKeys.contains e.1)),
              timestamps := s1.timestamps.filter (fun e => !(removeKeys.contains e.1)) }
  else s1

/-- Model of `ServiceCache.set(url, service)` at current time `now`. -/
def set (s : SCache) (url svc : String) (now : ℚ) : SCache :=
  let s1 := if s.cache.length ≥ s.maxSize then s.cleanupOld now else s
  { s1 with cache := dictSet s1.cache url svc,
            timestamps := dictSet s1.timestamps url now }

end SCache

/-- Model of `VideoURL._service_cache` as constructed at class definition time:
`ServiceCache(max_size=1000, ttl=3600)`, empty. -/
def emptySCache : SCache :=
  { cache := [], timestamps := [], maxSize := 1000, ttl := 3600 }

/-! ### Classifier (`VideoURL.get_service_name`, validators.py)

The module initializer at the bottom of validators.py runs
`load_patterns_from_config`, `_init_combined_patterns` and
`_init_domain_trie` and sets `_patterns_loaded = True` at import, so the
lazy-initialization block inside the functions is dead; `domainTrie` and
`compiledPatterns` above are that initialized shared state. -/

/-- Classification proper, after the cache miss: trie prefilter confirmed
by the found service's patterns, else the full scan over every compiled
pattern in dict order.  Returns the service together with whether
`log_unknown_url_format` was called (domain recognized, shape not). -/
def classifyUrl (url : String) : String × Bool :=
  let trieSvc := findService domainTrie url
  if trieSvc ≠ unknownService then
    let matched :=
      match dictLookup compiledPatterns trieSvc with
      | some form => form.matchUrl url
      | none => false
    if matched then (trieSvc, false) else (trieSvc, true)
  else
    match compiledPatterns.find? (fun e => e.2.matchUrl url) with
    | some e => (e.1, false)
    | none => (unknownService, false)

/-- Model of `VideoURL.get_service_name(url)` at current time `now`, acting on the
classification-cache state.  An empty URL returns immediately; a cached
truthy (non-empty) value is returned as is; otherwise the classification
result is written back into the cache.  The result keeps the log flag of
`classifyUrl` second. -/
def getServiceName (url : String) (s : SCache) (now : ℚ) :
    Except PyErr ((String × Bool) × SCache) :=
  if url = "" then .ok ((unknownService, false), s)
  else
    match SCache.get s url now with
    | .error e => .error e
    | .ok (copt, s1) =>
        match copt with
        | some c =>
            if c = "" then
              let r := classifyUrl url
              .ok (r, SCache.set s1 url r.1 now)
            else .ok ((c, false), s1)
        | none =>
            let r := classifyUrl url
            .ok (r, SCache.set s1 url r.1 now)

/-! ### Validity check (`VideoURL.is_valid`, validators.py) -/

def emptyUrlMsg : String := "URL не может быть пустым"

def schemeMsg : String := "URL должен начинаться с http:// или https://"

def unsupportedMsg : String := "Неподдерживаемый видеосервис или неверный формат URL"

/-- The `URLValidationError` message raised when the domain is recognized
but no pattern matches. -/
def formatMismatchMsg (svc : String) : String :=
  "Неверный формат URL для " ++ svc ++
    ". Проверьте правильность ссылки или сообщите разработчику о новом формате."

/-- The body of `is_valid` once the URL is known to start with `http://`
or `https://`: first the pattern scan over every service (returning
`(True, "")` on the first match without touching the classification
cache), then the lenient classifier decides between a format mismatch
for a recognized service and an unsupported service.  The `.error`
branch models the generic `except Exception` handler of the source; it
is unreachable for in-sync cache states. -/
def isValidCore (url : String) (s : SCache) (now : ℚ) : (Bool × String) × SCache :=
  if compiledPatterns.any (fun e => e.2.matchUrl url) then ((true, ""), s)
  else
    match getServiceName url s now with
    | .ok (r, s1) =>
        if r.1 ≠ unknownService then ((false, formatMismatchMsg r.1), s1)
        else ((false, unsupportedMsg), s1)
    | .error _ => ((false, "Ошибка при проверке URL: KeyError"), s)

/-- Model of `VideoURL.is_valid(url)` at current time `now`.  A URL without a
scheme and without `"://"` is auto-corrected once by prefixing
`"https://"`; the recursive call then necessarily takes the core
branch, which is inlined here. -/
def isValid (url : String) (s : SCache) (now : ℚ) : (Bool × String) × SCache :=
  if url = "" then ((false, emptyUrlMsg), s)
  else if pyStartsWith url "http://" || pyStartsWith url "https://" then
    isValidCore url s now
  else if !(strIn "://" url) then
    isValidCore ("https://" ++ url) s now
  else ((false, schemeMsg), s)

/-! ### The classifier of video.py (`VideoURL.get_service_name`)

video.py contains a second, older `VideoURL` class.  Its
`get_service_name` has no classification cache and no domain trie: it
scans the compiled patterns and then falls back to checking whether any
known domain of the (identical) `domain_map` literal occurs as a
substring of the URL, logging an unknown-format diagnostic on that
fallback.  Its `URL_PATTERNS` table is larger than the one in
validators.py (and contains look-ahead constructs), so the compiled
table is passed as a parameter here; the control flow is the
transliteration of the source. -/

/-- The `for domain, service in domain_map.items(): if domain in url`
fallback loop of video.py's `get_service_name`. -/
def videoDomainFallback : List (String × String) → String → Option String
  | [], _ => none
  | e :: rest, url => if strIn e.1 url then some e.2 else videoDomainFallback rest url

/-- video.py's `VideoURL.get_service_name(url)` over a compiled pattern
table, returning the service and whether `log_unknown_url_format` was
called. -/
def videoGetServiceName (compiled : List (String × CompiledForm)) (url : String) :
    String × Bool :=
  if url = "" then (unknownService, false)
  else
    match compiled.find? (fun e => e.2.matchUrl url) with
    | some e => (e.1, false)
    | none =>
        match videoDomainFallback domainMap url with
        | some svc => (svc, true)
        | none => (unknownService, false)

/-! ### JSON documents

The Metadata Cache persists itself with `json.dump` and `json.load`.
JSON values are modelled as a syntax tree (arrays and objects through
mutually inductive list types, which keeps all recursions structural).
Numbers are integers here: the metadata blobs the theorems quantify over
are drawn from this type, floats being outside the model.  `json.dump`
is modelled by a printer emitting exactly CPython's default format
(separators `', '` and `': '`, `"`- and `\`-escaping; control and
non-ASCII characters are emitted raw where CPython would `\u`-escape
them, a representation difference on the wire that the load model reads
back identically).  `json.load` is modelled by a recursive-descent
parser of that format. -/

mutual
inductive Json where
  | null : Json
  | bool (b : Bool) : Json
  | int (n : Int) : Json
  | str (s : String) : Json
  | arr (xs : JsonArr) : Json
  | obj (fs : JsonObj) : Json
inductive JsonArr where
  | nil : JsonArr
  | cons (hd : Json) (tl : JsonArr) : JsonArr
inductive JsonObj where
  | nil : JsonObj
  | cons (k : String) (v : Json) (tl : JsonObj) : JsonObj
end

/-- Digit-emitting loop: prepend the decimal digits of `n`, least
significant digit moving to the front, fuelled (any fuel at least the
digit count works; `n` itself is a generous bound). -/
def printNatAux : Nat → Nat → List Char → List Char
  | 0, _, acc => acc
  | f + 1, n, acc =>
      if n = 0 then acc
      else printNatAux f (n / 10) (Char.ofNat (48 + n % 10) :: acc)

/-- Decimal digits of a natural number, most significant first. -/
def printNat (n : Nat) : List Char :=
  if n = 0 then ['0'] else printNatAux (n + 1) n []

/-- Python `repr` of an integer as printed by `json.dump`. -/
def printInt (n : Int) : List Char :=
  if n < 0 then '-' :: printNat (-n).toNat else printNat n.toNat

/-- String-body escaping of `json.dump`: `"` and `\` get a backslash. -/
def escapeChars : List Char → List Char
  | [] => []
  | c :: cs => (if c = '"' ∨ c = '\\' then ['\\', c] else [c]) ++ escapeChars cs

/-- A JSON string literal. -/
def printStr (s : String) : List Char :=
  '"' :: (escapeChars s.data ++ ['"'])

mutual
def printJson : Json → List Char
  | .null => "null".data
  | .bool true => "true".data
  | .bool false => "false".data
  | .int n => printInt n
  | .str s => printStr s
  | .arr xs => '[' :: printArrItems xs
  | .obj fs => '\x7b' :: printObjItems fs
def printArrItems : JsonArr → List Char
  | .nil => [']']
  | .cons x t => printJson x ++ printArrRest t
def printArrRest : JsonArr → List Char
  | .nil => [']']
  | .cons x t => ',' :: ' ' :: (printJson x ++ printArrRest t)
def printObjItems : JsonObj → List Char
  | .nil => ['\x7d']
  | .cons k v t => printStr k ++ (':' :: ' ' :: (printJson v ++ printObjRest t))
def printObjRest : JsonObj → List Char
  | .nil => ['\x7d']
  | .cons k v t => ',' :: ' ' :: (printStr k ++ (':' :: ' ' :: (printJson v ++ printObjRest t)))
end

/-- Digit-reading loop of the number parser. -/
def parseNatAux : List Char → Nat → Nat × List Char
  | [], acc => (acc, [])
  | c :: cs, acc =>
      if c.isDigit then parseNatAux cs (10 * acc + (c.toNat - 48)) else (acc, c :: cs)

/-- Parse an integer literal (at least one digit, optional leading minus). -/
def parseIntVal : List Char → Option (Int × List Char)
  | [] => none
  | c :: cs =>
      if c = '-' then
        match cs with
        | [] => none
        | d :: _ =>
            if d.isDigit then
              let p := parseNatAux cs 0
              some (-(p.1 : Int), p.2)
            else none
      else if c.isDigit then
        let p := parseNatAux (c :: cs) 0
        some ((p.1 : Int), p.2)
      else none

/-- Character loop of the string-body parser; the flag records a pending
backslash. -/
def parseStrBodyAux : Bool → List Char → Option (List Char × List Char)
  | _, [] => none
  | true, d :: cs =>
      if d = '"' ∨ d = '\\' then
        (parseStrBodyAux false cs).map (fun p => (d :: p.1, p.2))
      else none
  | false, c :: cs =>
      if c = '"' then some ([], cs)
      else if c = '\\' then parseStrBodyAux true cs
      else (parseStrBodyAux false cs).map (fun p => (c :: p.1, p.2))

/-- Parse a string body up to the closing quote, undoing the escaping. -/
def parseStrBody (cs : List Char) : Option (List Char × List Char) :=
  parseStrBodyAux false cs

mutual
def parseVal : Nat → List Char → Option (Json × List Char)
  | 0, _ => none
  | _ + 1, [] => none
  | f + 1, c :: cs =>
      if c = '-' ∨ c.isDigit = true then
        (parseIntVal (c :: cs)).map (fun nc => (Json.int nc.1, nc.2))
      else if c = '"' then (parseStrBody cs).map (fun p => (Json.str (String.mk p.1), p.2))
      else if c = '[' then
        match cs with
        | [] => none
        | d :: ds =>
            if d = ']' then some (Json.arr JsonArr.nil, ds)
            else
              (parseVal f (d :: ds)).bind (fun xc =>
                (parseArrRestP f xc.2).map (fun ac =>
                  (Json.arr (JsonArr.cons xc.1 ac.1), ac.2)))
      else if c = '\x7b' then
        match cs with
        | '\x7d' :: cs2 => some (Json.obj JsonObj.nil, cs2)
        | '"' :: cs2 =>
            (parseStrBody cs2).bind (fun kc =>
              match kc.2 with
              | ':' :: ' ' :: cs4 =>
                  (parseVal f cs4).bind (fun vc =>
                    (parseObjRestP f vc.2).map (fun oc =>
                      (Json.obj (JsonObj.cons (String.mk kc.1) vc.1 oc.1), oc.2)))
              | _ => none)
        | _ => none
      else if c = 'n' then
        match cs with
        | 'u' :: 'l' :: 'l' :: cs2 => some (Json.null, cs2)
        | _ => none
      else if c = 't' then
        match cs with
        | 'r' :: 'u' :: 'e' :: cs2 => some (Json.bool true, cs2)
        | _ => none
      else if c = 'f' then
        match cs with
        | 'a' :: 'l' :: 's' :: 'e' :: cs2 => some (Json.bool false, cs2)
        | _ => none
      else none
def parseArrRestP : Nat → List Char → Option (JsonArr × List Char)
  | 0, _ => none
  | _ + 1, ']' :: cs => some (JsonArr.nil, cs)
  | f + 1, ',' :: ' ' :: cs =>
      (parseVal f cs).bind (fun xc =>
        (parseArrRestP f xc.2).map (fun ac => (JsonArr.cons xc.1 ac.1, ac.2)))
  | _ + 1, _ => none
def parseObjRestP : Nat → List Char → Option (JsonObj × List Char)
  | 0, _ => none
  | _ + 1, '\x7d' :: cs => some (JsonObj.nil, cs)
  | f + 1, ',' :: ' ' :: '"' :: cs =>
      (parseStrBody cs).bind (fun kc =>
        match kc.2 with
        | ':' :: ' ' :: cs3 =>
            (parseVal f cs3).bind (fun vc =>
              (parseObjRestP f vc.2).map (fun oc =>
                (JsonObj.cons (String.mk kc.1) vc.1 oc.1, oc.2)))
        | _ => none)
  | _ + 1, _ => none
end

/-- Model of `json.load` of a whole document (trailing data is an error). -/
def parseJson (s : String) : Option Json :=
  match parseVal (s.length + 1) s.data with
  | some (j, []) => some j
  | _ => none

/-- Whether the input does not continue with a digit (the condition under
which a just-parsed integer literal is not extended by what follows). -/
def headOkNum : List Char → Bool
  | [] => true
  | c :: _ => !c.isDigit

/-! Fuel sufficient for `parseVal` on the printed form of a value
(one unit per nesting step, see the round-trip lemmas). -/

mutual
def needJ : Json → Nat
  | .arr .nil => 1
  | .arr (.cons x t) => 1 + max (needJ x) (needA t)
  | .obj .nil => 1
  | .obj (.cons _ v t) => 1 + max (needJ v) (needO t)
  | _ => 1
def needA : JsonArr → Nat
  | .nil => 1
  | .cons x t => 1 + max (needJ x) (needA t)
def needO : JsonObj → Nat
  | .nil => 1
  | .cons _ v t => 1 + max (needJ v) (needO t)
end

/-- The ordered field list of a JSON object, as an association list. -/
def objToList : JsonObj → List (String × Json)
  | .nil => []
  | .cons k v t => (k, v) :: objToList t

/-- An association list as a JSON object (the dict comprehension
`{k: v for k, v in self.cache.items()}` of `save_to_file`). -/
def listToObj : List (String × Json) → JsonObj
  | [] => .nil
  | (k, v) :: t => .cons k v (listToObj t)

/-! ### Metadata Cache (`class VideoInfoCache`, downloader.py)

State of one cache instance.  The recency (insertion/access) order of the
`OrderedDict` is the list order, oldest first; `popitem(last=False)` pops
the head.  `cache_size_bytes` is a Python integer, hence `Int`.
`_get_key` is the md5 hex digest of the URL, injective on the URLs
considered; entries are keyed by its result, which the operations below
take as the `key` argument. -/

structure VState where
  cache : List (String × Json)
  sizeBytes : Int
  maxSize : Nat
  maxMemoryBytes : Int
  lastCleanup : ℚ

/-- Model of `VideoInfoCache._estimate_size(info)`:
`len(json.dumps(obj, default=str).encode('utf-8'))`.  Values of the
`Json` type always serialize, so the 1024-byte fallback branch is dead. -/
def estimateSize (v : Json) : Int :=
  ((String.mk (printJson v)).utf8ByteSize : Int)

/-- The eviction loop of `VideoInfoCache.set`: while the entry count is
at capacity or the new entry does not fit the byte budget, pop the
least-recently-used entry and deduct its estimated size — but stop as
soon as the cache is empty. -/
def evictLoop (maxSize : Nat) (maxMem isz : Int) :
    List (String × Json) → Int → List (String × Json) × Int
  | [], sz => ([], sz)
  | e :: rest, sz =>
      if maxSize ≤ rest.length + 1 ∨ maxMem < sz + isz then
        evictLoop maxSize maxMem isz rest (sz - estimateSize e.2)
      else (e :: rest, sz)

/-- Model of `VideoInfoCache.set(url, info)` (in-memory effect; the best-effort
`save_to_file` afterwards does not change the in-memory state).
Assignment to an existing key keeps its recency position. -/
def VState.setEntry (s : VState) (key : String) (info : Json) : VState :=
  let isz := estimateSize info
  let p := evictLoop s.maxSize s.maxMemoryBytes isz s.cache s.sizeBytes
  { s with cache := dictSet p.1 key info, sizeBytes := p.2 + isz }

/-- The eviction loop of `_periodic_cleanup`: pop up to `n` oldest
entries (`popitem(last=False)` guarded by a non-empty check). -/
def VState.popOldest (s : VState) : Nat → VState
  | 0 => s
  | n + 1 =>
      match s.cache with
      | [] => s
      | e :: rest =>
          VState.popOldest
            { s with cache := rest, sizeBytes := s.sizeBytes - estimateSize e.2 } n

/-- Model of `VideoInfoCache._periodic_cleanup()`: every 300 seconds, and only
when the external memory probe reports the process limit exceeded, evict
half the cache.  The probe result is the `memExceeded` input. -/
def VState.periodicCleanup (s : VState) (now : ℚ) (memExceeded : Bool) : VState :=
  if 300 < now - s.lastCleanup then
    let s1 := { s with lastCleanup := now }
    if memExceeded then s1.popOldest (s1.cache.length / 2) else s1
  else s

/-- Outcome of `VideoInfoCache.get`: the promoted hit, or the
`UnboundLocalError` raised by `return value` on the miss path (carrying
the state after the periodic cleanup).  There is no miss outcome that
returns normally: the trailing `return None` of the source sits after an
unconditional `return value` and is unreachable. -/
inductive GetResult where
  | found (v : Json) (s : VState)
  | raiseUnbound (s : VState)

/-- Model of `VideoInfoCache.get(url)` for the key `_get_key(url)`.  A hit pops
the entry and re-inserts it at the most-recently-used end. -/
def VState.get (s : VState) (key : String) (now : ℚ) (memExceeded : Bool) : GetResult :=
  let s1 := s.periodicCleanup now memExceeded
  match dictLookup s1.cache key with
  | some v => .found v { s1 with cache := dictDel s1.cache key ++ [(key, v)] }
  | none => .raiseUnbound s1

/-- Model of `VideoInfoCache.save_to_file()`: the file content written,
`json.dump` of the dict copy of the cache (order preserved). -/
def VState.saveToFile (s : VState) : String :=
  String.mk (printJson (Json.obj (listToObj s.cache)))

/-- Model of `VideoInfoCache.load_from_file()` on a file holding `content`
(`none` when the file does not exist).  A parsed object becomes the new
`OrderedDict` in document order; any read or parse failure (or a
document `OrderedDict` rejects) is caught and leaves the cache as it
was.  `cache_size_bytes` is not recomputed by the source. -/
def VState.loadFromFile (s : VState) (content : Option String) : Bool × VState :=
  match content with
  | none => (false, s)
  | some text =>
      match parseJson text with
      | some (Json.obj fs) => (true, { s with cache := objToList fs })
      | _ => (false, s)

/-! ### Pattern Store (`VideoURL.load_patterns_from_config`, validators.py)

The configuration document is an arbitrary parsed JSON/Python value.
`URL_PATTERNS` is a dict from service name to a list of patterns; the
elements start as strings and the loader appends whatever hashable
values the document supplies, so table values are `PyVal`s. -/

inductive PyVal where
  | pstr (s : String) : PyVal
  | pint (n : Int) : PyVal
  | pbool (b : Bool) : PyVal
  | pnone : PyVal
  | plist (xs : List PyVal) : PyVal
  | pdict (fs : List (String × PyVal)) : PyVal

/-! Python `==` between document values (cross-type equalities such as
`True == 1` do not arise in the loader: the pattern lists compared
against contain strings). -/

mutual
def pyEq : PyVal → PyVal → Bool
  | .pstr a, .pstr b => a == b
  | .pint a, .pint b => a == b
  | .pbool a, .pbool b => a == b
  | .pnone, .pnone => true
  | .plist xs, .plist ys => pyEqList xs ys
  | .pdict fs, .pdict gs => pyEqDict fs gs
  | _, _ => false
def pyEqList : List PyVal → List PyVal → Bool
  | [], [] => true
  | x :: xs, y :: ys => pyEq x y && pyEqList xs ys
  | _, _ => false
def pyEqDict : List (String × PyVal) → List (String × PyVal) → Bool
  | [], [] => true
  | e :: es, f :: fs => e.1 == f.1 && pyEq e.2 f.2 && pyEqDict es fs
  | _, _ => false
end

/-- Whether a value may appear in a `set` / be tested with `in`
(lists and dicts raise `TypeError: unhashable`). -/
def pyHashable : PyVal → Bool
  | .plist _ => false
  | .pdict _ => false
  | _ => true

/-- Model of `for pattern in service_patterns`: what iteration yields, or
`none` for the `TypeError` on a non-iterable value.  Strings yield their
characters, dicts their keys. -/
def pyIter : PyVal → Option (List PyVal)
  | .plist xs => some xs
  | .pstr s => some (s.data.map (fun c => PyVal.pstr (String.mk [c])))
  | .pdict fs => some (fs.map (fun e => PyVal.pstr e.1))
  | _ => none

/-- The inner loop of the loader: append each document pattern not in
the snapshot set `set(cls.URL_PATTERNS[service])` (taken once, before
the loop) to the current list; an unhashable pattern raises inside the
membership test, keeping the appends made so far. -/
def appendNew (snapshot : List PyVal) : List PyVal → List PyVal → Bool × List PyVal
  | [], cur => (true, cur)
  | e :: rest, cur =>
      if pyHashable e then
        appendNew snapshot rest
          (if snapshot.any (fun x => pyEq x e) then cur else cur ++ [e])
      else (false, cur)

/-- The outer loop over `patterns.items()`: services not already in
`URL_PATTERNS` are skipped; a failure stops the loop but keeps every
mutation already made. -/
def loadLoop : List (String × PyVal) → List (String × List PyVal) →
    Bool × List (String × List PyVal)
  | [], table => (true, table)
  | (svc, sp) :: rest, table =>
      match dictLookup table svc with
      | some existing =>
          match pyIter sp with
          | none => (false, table)
          | some elems =>
              let r := appendNew existing elems existing
              if r.1 then loadLoop rest (dictSet table svc r.2)
              else (false, dictSet table svc r.2)
      | none => loadLoop rest table

/-- The four ways the configuration file can present itself to
`load_patterns_from_config`. -/
inductive ConfigFile where
  | absent : ConfigFile
  | unreadable : ConfigFile
  | invalid : ConfigFile
  | doc (v : PyVal) : ConfigFile

/-- Model of `VideoURL.load_patterns_from_config()` acting on the current
`URL_PATTERNS` table.  An absent file bootstraps the config via
`save_patterns_to_config` and returns `False`; an unreadable or
unparsable file is caught by the `except` and returns `False`; a parsed
non-dict document fails at `.items()`; a parsed dict is merged by
`loadLoop`. -/
def loadPatternsFromConfig (file : ConfigFile) (table : List (String × List PyVal)) :
    Bool × List (String × List PyVal) :=
  match file with
  | .absent => (false, table)
  | .unreadable => (false, table)
  | .invalid => (false, table)
  | .doc v =>
      match v with
      | .pdict fs => loadLoop fs table
      | _ => (false, table)

/-! The literal pattern strings of `URL_PATTERNS` in validators.py
(`{` and `}` written as their character escapes). -/

def ytRaw : List String :=
  ["^https?://(?:www\\.)?youtube\\.com/watch\\?v=[\\w-]\x7b11\x7d(?:&\\S*)?$",
   "^https?://youtu\\.be/[\\w-]\x7b11\x7d(?:\\?\\S*)?$",
   "^https?://(?:www\\.)?youtube\\.com/shorts/[\\w-]\x7b11\x7d(?:\\?\\S*)?$",
   "^https?://(?:www\\.)?youtube\\.com/embed/[\\w-]\x7b11\x7d(?:\\?\\S*)?$",
   "^https?://(?:www\\.)?youtube\\.com/playlist\\?list=[\\w-]+(?:&\\S*)?$",
   "^https?://(?:www\\.)?youtube\\.com/(?:channel|c|user)/[\\w-]+(?:/\\S*)?$",
   "^https?://(?:www\\.)?youtube\\.com/\\S+[\\?&]v=[\\w-]\x7b11\x7d(?:&\\S*)?$",
   "^https?://music\\.youtube\\.com/watch\\?v=[\\w-]\x7b11\x7d(?:&\\S*)?$",
   "^https?://(?:www\\.)?youtube\\.com/tv#/watch/video/control\\?v=[\\w-]\x7b11\x7d$",
   "^https?://music\\.youtube\\.com/playlist\\?list=[\\w-]+(?:&\\S*)?$",
   "^https?://(?:www\\.)?youtube\\.com/clip/[\\w-]+(?:\\?\\S*)?$"]

def vkRaw : List String :=
  ["^https?://(?:www\\.)?vk\\.com/video-?\\d+_\\d+(?:\\?\\S*)?$",
   "^https?://(?:www\\.)?vkvideo\\.ru/video-?\\d+_\\d+(?:\\?\\S*)?$",
   "^https?://(?:www\\.)?vk\\.com/(?:video|clip)-?\\d+(?:_\\d+)?(?:\\?\\S*)?$",
   "^https?://(?:www\\.)?vk\\.com/videos-?\\d+(?:\\?\\S*)?$",
   "^https?://(?:www\\.)?vk\\.com/\\S+$",
   "^https?://(?:www\\.)?vk\\.com/clips-?\\d+(?:\\?\\S*)?$",
   "^https?://(?:m\\.)?vk\\.com/video(?:_ext)?\\.php\\?.*oid=(?:-?\\d+).*id=\\d+.*$",
   "^https?://(?:www\\.)?vk\\.com/video_ext\\.php\\?.*oid=(?:-?\\d+).*id=\\d+.*$"]

def rtRaw : List String :=
  ["^https?://(?:www\\.)?rutube\\.ru/video/[\\w-]\x7b32\x7d/?(?:\\?\\S*)?$",
   "^https?://(?:www\\.)?rutube\\.ru/play/embed/[\\w-]\x7b32\x7d/?(?:\\?\\S*)?$"]

def tkRaw : List String :=
  ["^https?://(?:www\\.)?tiktok\\.com/@[\\w\\.-]+/video/\\d+(?:\\?\\S*)?$",
   "^https?://(?:vm|vt)\\.tiktok\\.com/[\\w\\.-]+/?(?:\\?\\S*)?$"]

/-- Model of `VideoURL.URL_PATTERNS` as defined in validators.py, before any
configuration merge. -/
def realURLPatterns : List (String × List PyVal) :=
  [("YouTube", ytRaw.map PyVal.pstr),
   ("VK", vkRaw.map PyVal.pstr),
   ("RuTube", rtRaw.map PyVal.pstr),
   ("TikTok", tkRaw.map PyVal.pstr)]

/-- The sum of the stored entries' size estimates (what
`cache_size_bytes` is intended to track). -/
def sumEst (l : List (String × Json)) : Int :=
  (l.map (fun e => estimateSize e.2)).sum

/-- A fresh `VideoInfoCache(max_size=M, max_memory_bytes=mm)`. -/
def emptyVCache (M : Nat) (mm : Int) (lc : ℚ) : VState :=
  { cache := [], sizeBytes := 0, maxSize := M, maxMemoryBytes := mm, lastCleanup := lc }

/-- A sequence of `set` calls, oldest first. -/
def applySets (s : VState) : List (String × Json) → VState
  | [] => s
  | e :: rest => applySets (s.setEntry e.1 e.2) rest

/-! ## Theorems

Helper lemmas first, then one theorem per claim (with its witness or
counterexample). -/

theorem Regex.matchList_cons (r : Regex) (c : Char) (cs : List Char) :
    Regex.matchList r (c :: cs) = Regex.matchList (Regex.derive r c) cs := rfl

/-- The derivative matcher sends an alternation to the disjunction of
its branches. -/
theorem Regex.matchList_alt (cs : List Char) :
    ∀ a b : Regex, Regex.matchList (Regex.alt a b) cs
      = (Regex.matchList a cs || Regex.matchList b cs) := by
  induction cs with
  | nil => intro a b; rfl
  | cons c cs ih =>
      intro a b
      rw [Regex.matchList_cons, Regex.matchList_cons, Regex.matchList_cons]
      exact ih (Regex.derive a c) (Regex.derive b c)

theorem Regex.fullmatch_alt (a b : Regex) (s : String) :
    Regex.fullmatch (Regex.alt a b) s = (Regex.fullmatch a s || Regex.fullmatch b s) :=
  Regex.matchList_alt s.data a b

theorem Regex.fullmatch_foldl_alt (ps : List Regex) :
    ∀ (p : Regex) (url : String),
      Regex.fullmatch (ps.foldl Regex.alt p) url
        = (Regex.fullmatch p url || ps.any (fun q => Regex.fullmatch q url)) := by
  induction ps with
  | nil => intro p url; simp
  | cons q ps ih =>
      intro p url
      rw [List.foldl_cons, ih, Regex.fullmatch_alt]
      simp [Bool.or_assoc]

theorem dictLookup_dictDel {α : Type} (l : List (String × α)) (k : String) :
    dictLookup (dictDel l k) k = none := by
  induction l with
  | nil => rfl
  | cons e t ih =>
      simp only [dictDel, dictLookup, List.filter_cons] at *
      by_cases h : e.1 = k
      · simp [h, ih]
      · simp [List.find?, h, ih]

/-- The search loop returns the first annotation along the walk. -/
theorem DTrie.walkAux_eq_head :
    ∀ (parts : List String) (t : DTrie),
      DTrie.walkAux t parts = (DTrie.annotationsAlong t parts).head? := by
  intro parts
  induction parts with
  | nil => intro t; rfl
  | cons p ps ih =>
      intro t
      cases hc : DTrie.lookupChild t.childrenOf p with
      | none => simp [DTrie.walkAux, DTrie.annotationsAlong, hc]
      | some child =>
          cases hs : child.svcOf with
          | some svc => simp [DTrie.walkAux, DTrie.annotationsAlong, hc, hs]
          | none => simp [DTrie.walkAux, DTrie.annotationsAlong, hc, hs, ih child]

/-- The substring-fallback loop of video.py returns the service of the
first domain-map entry whose domain occurs in the URL. -/
theorem videoDomainFallback_eq_find :
    ∀ (dm : List (String × String)) (url : String),
      videoDomainFallback dm url = (dm.find? (fun e => strIn e.1 url)).map (fun e => e.2) := by
  intro dm url
  induction dm with
  | nil => rfl
  | cons e rest ih =>
      cases h : strIn e.1 url with
      | true => simp [videoDomainFallback, List.find?, h]
      | false => simp [videoDomainFallback, List.find?, h, ih]

/-- Behaviour of `get_service_name` on a classification-cache miss:
classify and write the result back. -/
theorem getServiceName_cacheMiss (url : String) (s : SCache) (now : ℚ)
    (hne : url ≠ "") (hmiss : dictLookup s.cache url = none) :
    getServiceName url s now
      = .ok (classifyUrl url, SCache.set s url (classifyUrl url).1 now) := by
  simp only [getServiceName, SCache.get, hmiss, if_neg hne]

/-- Absence of a key survives the head-popping loop of the periodic
cleanup. -/
theorem dictLookup_popOldest_none (key : String) :
    ∀ (n : Nat) (s : VState), dictLookup s.cache key = none →
      dictLookup ((s.popOldest n).cache) key = none := by
  intro n
  induction n with
  | zero => intro s h; exact h
  | succ n ih =>
      intro s h
      cases hc : s.cache with
      | nil => simpa [VState.popOldest, hc] using h
      | cons e rest =>
          rw [hc] at h
          simp only [dictLookup, List.find?] at h
          cases he : (e.1 == key) with
          | true => simp [he] at h
          | false =>
              rw [he] at h
              simp only [VState.popOldest, hc]
              exact ih _ (by simpa [dictLookup] using h)

/-- Absence of a key survives `_periodic_cleanup`. -/
theorem dictLookup_cleanup_none (s : VState) (key : String) (now : ℚ) (mem : Bool)
    (h : dictLookup s.cache key = none) :
    dictLookup ((s.periodicCleanup now mem).cache) key = none := by
  unfold VState.periodicCleanup
  by_cases ht : (300 : ℚ) < now - s.lastCleanup
  · rw [if_pos ht]
    cases mem with
    | true => exact dictLookup_popOldest_none key _ _ h
    | false => exact h
  · rw [if_neg ht]; exact h

/-- Claim C8: for every service, the combined alternation built from its
pattern list and the fallback list of individually compiled patterns are
equivalent deciders, and both succeed precisely when at least one of the
service's individual patterns matches the URL. -/
theorem c8_combined_equiv (ps : List (String × Regex)) (url : String) (hne : 0 < ps.length) :
    (CompiledForm.combined (combine (ps.map (fun e => e.2)))).matchUrl url
        = (CompiledForm.separate ps).matchUrl url
      ∧ ((CompiledForm.separate ps).matchUrl url = true
          ↔ ∃ e ∈ ps, Regex.fullmatch e.2 url = true) := by
  constructor
  · cases ps with
    | nil => exact absurd hne (by decide)
    | cons e es =>
        have hmap : ∀ (l : List (String × Regex)),
            (l.map (fun x => x.2)).any (fun q => Regex.fullmatch q url)
              = l.any (fun pr => Regex.fullmatch pr.2 url) := by
          intro l
          induction l with
          | nil => rfl
          | cons x xs ih => simp [List.any_cons, ih]
        show Regex.fullmatch ((es.map fun x => x.2).foldl Regex.alt e.2) url
            = (e :: es).any fun pr => Regex.fullmatch pr.2 url
        rw [Regex.fullmatch_foldl_alt, hmap, List.any_cons]
  · simp [CompiledForm.matchUrl, List.any_eq_true]

/-- Witness for C8 at the YouTube pattern list (the source stores the
fallback as a list of `(pattern string, compiled)` pairs). -/
theorem c8_witness :
    (CompiledForm.combined (combine (((ytRaw.zip ytPatterns)).map (fun e => e.2)))).matchUrl
        "https://youtu.be/dQw4w9WgXcQ"
        = (CompiledForm.separate (ytRaw.zip ytPatterns)).matchUrl "https://youtu.be/dQw4w9WgXcQ"
      ∧ ((CompiledForm.separate (ytRaw.zip ytPatterns)).matchUrl "https://youtu.be/dQw4w9WgXcQ" = true
          ↔ ∃ e ∈ ytRaw.zip ytPatterns, Regex.fullmatch e.2 "https://youtu.be/dQw4w9WgXcQ" = true) :=
  c8_combined_equiv (ytRaw.zip ytPatterns) "https://youtu.be/dQw4w9WgXcQ"
    (by simp [ytRaw, ytPatterns])

/-- Claim C5 counterexample: in a trie where the walk passes two
annotated nodes, `find_service` returns the annotation of the first
(shallowest) one, not the deepest. -/
theorem c5_counterexample :
    (hostOf "http://c.a.b/x" = "c.a.b")
    ∧ (DTrie.annotationsAlong
        (DTrie.addDomain (DTrie.addDomain (DTrie.node none []) "a.b" "S1") "c.a.b" "S2")
        ((pySplit "c.a.b" ".").reverse)).length = 2
    ∧ (DTrie.annotationsAlong
        (DTrie.addDomain (DTrie.addDomain (DTrie.node none []) "a.b" "S1") "c.a.b" "S2")
        ((pySplit "c.a.b" ".").reverse)).getLast? = some "S2"
    ∧ findService (DTrie.addDomain (DTrie.addDomain (DTrie.node none []) "a.b" "S1") "c.a.b" "S2")
        "http://c.a.b/x" = "S1"
    ∧ ("S1" : String) ≠ "S2" := by decide

/-- Claim C5 amended: `find_service` returns the service annotated at
the shallowest (first) annotated node reached along the walk, with the
unknown-service default when no annotated node is reached. -/
theorem c5_findService_first (t : DTrie) (url : String) :
    findService t url
      = ((DTrie.annotationsAlong t ((pySplit (hostOf url) ".").reverse)).head?).getD
          unknownService := by
  unfold findService
  rw [DTrie.walkAux_eq_head]

/-- Claim C7: a Classification Cache entry whose stored timestamp is `T`
is a miss for any lookup at a time at least `T + ttl`, and the lookup
deletes the stale entry from both dicts. -/
theorem c7_ttl_miss (s : SCache) (url svc : String) (now T : ℚ)
    (hc : dictLookup s.cache url = some svc)
    (hts : dictLookup s.timestamps url = some T)
    (hstale : T + s.ttl ≤ now) :
    SCache.get s url now
      = .ok (none, { s with cache := dictDel s.cache url,
                            timestamps := dictDel s.timestamps url })
    ∧ dictLookup (dictDel s.cache url) url = none
    ∧ dictLookup (dictDel s.timestamps url) url = none := by
  refine ⟨?_, dictLookup_dictDel _ _, dictLookup_dictDel _ _⟩
  simp only [SCache.get, hc, hts]
  rw [if_neg (not_lt.mpr (by linarith))]

/-- Witness for C7: a one-entry cache written at time 0 with the default
ttl 3600, looked up at exactly time 3600. -/
theorem c7_witness :
    SCache.get { cache := [("u", "X")], timestamps := [("u", (0 : ℚ))],
                 maxSize := 1000, ttl := 3600 } "u" 3600
      = .ok (none, { cache := dictDel [("u", "X")] "u",
                     timestamps := dictDel [("u", (0 : ℚ))] "u",
                     maxSize := 1000, ttl := 3600 })
    ∧ dictLookup (dictDel [("u", "X")] "u") "u" = none
    ∧ dictLookup (dictDel [("u", (0 : ℚ))] "u") "u" = none :=
  c7_ttl_miss _ "u" "X" 3600 0 rfl rfl (by norm_num)

/-- Claim C10: when the key is absent, `VideoInfoCache.get` does not
return normally — the final `return value` reads a name bound only on
the hit path, so the call raises `UnboundLocalError` (after the periodic
cleanup has run); the trailing `return None` is unreachable. -/
theorem c10_get_miss_raises (s : VState) (key : String) (now : ℚ) (mem : Bool)
    (h : dictLookup s.cache key = none) :
    VState.get s key now mem = .raiseUnbound (s.periodicCleanup now mem) := by
  simp only [VState.get, dictLookup_cleanup_none s key now mem h]

/-- Witness for C10 on the empty cache of the module-level instance
(`VideoInfoCache(max_size=50, max_memory_mb=100)`). -/
theorem c10_witness :
    VState.get { cache := [], sizeBytes := 0, maxSize := 50,
                 maxMemoryBytes := 104857600, lastCleanup := 0 } "k" 0 false
      = .raiseUnbound
          (VState.periodicCleanup
            { cache := [], sizeBytes := 0, maxSize := 50,
              maxMemoryBytes := 104857600, lastCleanup := 0 } 0 false) :=
  c10_get_miss_raises _ "k" 0 false rfl

/-- Claim C2 counterexample: `is_valid` on a well-formed URL whose
domain is known but which matches no pattern inserts a classification
into the (initially empty) Classification Cache. -/
theorem c2_counterexample :
    (pyStartsWith "https://youtube.com/not-a-real-path" "https://" = true)
    ∧ emptySCache.cache = []
    ∧ dictLookup (isValid "https://youtube.com/not-a-real-path" emptySCache 0).2.cache
        "https://youtube.com/not-a-real-path" = some "YouTube" := by
  refine ⟨by decide, rfl, by decide⟩

/-- Claim C2 amended: for URLs starting with a scheme that match some
service's compiled pattern, `is_valid` returns `(true, "")` and leaves
the Classification Cache untouched; only the no-match path consults
`get_service_name`, which reads and writes the cache. -/
theorem c2_valid_no_cache_touch (url : String) (s : SCache) (now : ℚ)
    (hscheme : (pyStartsWith url "http://" || pyStartsWith url "https://") = true)
    (hmatch : compiledPatterns.any (fun e => e.2.matchUrl url) = true) :
    isValid url s now = ((true, ""), s) := by
  have hne : url ≠ "" := by
    intro h
    rw [h] at hscheme
    exact absurd hscheme (by decide)
  unfold isValid
  rw [if_neg hne, if_pos hscheme]
  unfold isValidCore
  rw [if_pos hmatch]

/-- Witness for C2 on a canonical watch URL and the empty cache. -/
theorem c2_witness :
    isValid "https://www.youtube.com/watch?v=dQw4w9WgXcQ" emptySCache 0
      = ((true, ""), emptySCache) :=
  c2_valid_no_cache_touch "https://www.youtube.com/watch?v=dQw4w9WgXcQ" emptySCache 0
    (by decide) (by decide)

/-- Claim C3 counterexample: a URL whose host is unknown to the trie and
which matches no pattern, while the known domain string `youtube.com`
occurs in it as a literal substring: the classifier of validators.py
returns the unknown-service result, not YouTube. -/
theorem c3_counterexample :
    findService domainTrie "https://example.com/?from=youtube.com" = unknownService
    ∧ compiledPatterns.any
        (fun e => e.2.matchUrl "https://example.com/?from=youtube.com") = false
    ∧ strIn "youtube.com" "https://example.com/?from=youtube.com" = true
    ∧ dictLookup domainMap "youtube.com" = some "YouTube"
    ∧ ((getServiceName "https://example.com/?from=youtube.com" emptySCache 0).toOption.map
        (fun r => r.1.1))
        = some unknownService
    ∧ unknownService ≠ "YouTube" := by decide

/-- Claim C3 amended: the classifier of validators.py has no substring
fallback — with the trie inconclusive and no pattern matching it returns
the unknown service even when a known domain string occurs inside the
URL; the substring fallback lives only in video.py's `get_service_name`
(which has no trie prefilter), where it returns the service of the first
domain-map entry occurring in the URL and logs the unknown-format
diagnostic. -/
theorem c3_amended (s : SCache) (now : ℚ) (url : String)
    (compiled : List (String × CompiledForm)) (dv : String × String)
    (hmiss : dictLookup s.cache url = none)
    (hne : url ≠ "")
    (htrie : findService domainTrie url = unknownService)
    (hnopat : (compiledPatterns.find? (fun e => e.2.matchUrl url)).isNone = true)
    (hnopat2 : (compiled.find? (fun e => e.2.matchUrl url)).isNone = true)
    (hsub : domainMap.find? (fun e => strIn e.1 url) = some dv) :
    Except.map (fun r => r.1.1) (getServiceName url s now) = .ok unknownService
    ∧ videoGetServiceName compiled url = (dv.2, true) := by
  rw [Option.isNone_iff_eq_none] at hnopat hnopat2
  constructor
  · rw [getServiceName_cacheMiss url s now hne hmiss]
    have hcls : classifyUrl url = (unknownService, false) := by
      unfold classifyUrl
      rw [htrie]
      simp [hnopat]
    rw [hcls]
    rfl
  · unfold videoGetServiceName
    rw [if_neg hne]
    simp only [hnopat2]
    rw [videoDomainFallback_eq_find, hsub]
    rfl

/-- Witness for C3: the same URL settles both halves — validators.py
yields the unknown service, video.py's variant (run here over the
validators.py compiled table) yields YouTube via the substring
fallback. -/
theorem c3_witness :
    Except.map (fun r => r.1.1)
        (getServiceName "https://example.com/?from=youtube.com" emptySCache 0)
        = .ok unknownService
    ∧ videoGetServiceName compiledPatterns "https://example.com/?from=youtube.com"
        = (("youtube.com", "YouTube").2, true) :=
  c3_amended emptySCache 0 "https://example.com/?from=youtube.com" compiledPatterns
    ("youtube.com", "YouTube") rfl (by decide) (by decide) (by decide) (by decide) (by decide)

/-- A successful dict lookup exhibits an entry of the list carrying the
found value. -/
theorem dictLookup_ex {α : Type} (l : List (String × α)) (k : String) (v : α)
    (h : dictLookup l k = some v) : ∃ e ∈ l, e.2 = v := by
  induction l with
  | nil => exact absurd h (by simp [dictLookup])
  | cons e t ih =>
      cases he : (e.1 == k) with
      | true =>
          have hv : some e.2 = some v := by simpa [dictLookup, List.find?, he] using h
          exact ⟨e, List.mem_cons_self e t, Option.some.inj hv⟩
      | false =>
          have ht : dictLookup t k = some v := by simpa [dictLookup, List.find?, he] using h
          obtain ⟨e', he', hv⟩ := ih ht
          exact ⟨e', List.mem_cons_of_mem e he', hv⟩

/-- Claim C6 counterexample: `ftp://youtube.com/x` — the trie resolves the
domain to YouTube and no compiled pattern matches, so `get_service_name`
returns YouTube; yet `is_valid` answers with the scheme error, not the
format-mismatch message naming YouTube: the URL fails the
`startswith(('http://', 'https://'))` pre-check (and contains `://`, so
it is not auto-corrected) before the classifier is ever consulted. -/
theorem c6_counterexample :
    findService domainTrie "ftp://youtube.com/x" = "YouTube"
    ∧ "YouTube" ≠ unknownService
    ∧ compiledPatterns.any (fun e => e.2.matchUrl "ftp://youtube.com/x") = false
    ∧ ((getServiceName "ftp://youtube.com/x" emptySCache 0).toOption.map
        (fun r => r.1.1)) = some "YouTube"
    ∧ (isValid "ftp://youtube.com/x" emptySCache 0).1 = (false, schemeMsg)
    ∧ schemeMsg ≠ formatMismatchMsg "YouTube" := by decide

/-- Claim C6 amended: for every uncached URL that starts with `http://`
or `https://`, whose domain the trie resolves to a known service and
which matches no compiled pattern of any service, `get_service_name`
returns that service while `is_valid` returns `(false, message)` with
the format-mismatch message naming that service.  The scheme restriction
is necessary: with another scheme `is_valid` raises the scheme error
first (see the counterexample). -/
theorem c6_amended (url svc : String) (s : SCache) (now : ℚ)
    (hscheme : (pyStartsWith url "http://" || pyStartsWith url "https://") = true)
    (htrie : findService domainTrie url = svc)
    (hsvc : svc ≠ unknownService)
    (hnopat : compiledPatterns.any (fun e => e.2.matchUrl url) = false)
    (hmiss : dictLookup s.cache url = none) :
    Except.map (fun r => r.1.1) (getServiceName url s now) = .ok svc
    ∧ (isValid url s now).1 = (false, formatMismatchMsg svc) := by
  have hne : url ≠ "" := by
    intro h
    subst h
    exact absurd hscheme (by decide)
  have hall : ∀ e ∈ compiledPatterns, e.2.matchUrl url = false := by
    intro e he
    cases hm : e.2.matchUrl url with
    | false => rfl
    | true =>
        have : compiledPatterns.any (fun x => x.2.matchUrl url) = true :=
          List.any_eq_true.mpr ⟨e, he, hm⟩
        rw [hnopat] at this
        exact absurd this Bool.false_ne_true
  have hcls : classifyUrl url = (svc, true) := by
    simp only [classifyUrl]
    rw [htrie, if_pos hsvc]
    cases hdl : dictLookup compiledPatterns svc with
    | none => rfl
    | some form =>
        obtain ⟨e, he, hev⟩ := dictLookup_ex compiledPatterns svc form hdl
        have hf : form.matchUrl url = false := by rw [← hev]; exact hall e he
        show (if form.matchUrl url = true then (svc, false) else (svc, true)) = (svc, true)
        rw [hf]
        rfl
  have hgsn := getServiceName_cacheMiss url s now hne hmiss
  constructor
  · rw [hgsn, hcls]
    rfl
  · have hiv : isValid url s now = isValidCore url s now := by
      unfold isValid
      rw [if_neg hne, if_pos hscheme]
    rw [hiv]
    unfold isValidCore
    rw [if_neg (by simp [hnopat]), hgsn, hcls]
    simp [hsvc]

/-- Claim C4 counterexample: a parsed configuration dict whose second
service carries a non-iterable value makes the load fail, yet the first
service's pattern list has already been extended (from 11 entries to
12). -/
theorem c4_counterexample :
    (loadPatternsFromConfig
        (.doc (.pdict [("YouTube", .plist [.pstr "NEWPAT"]), ("VK", .pint 0)]))
        realURLPatterns).1 = false
    ∧ ((dictLookup (loadPatternsFromConfig
          (.doc (.pdict [("YouTube", .plist [.pstr "NEWPAT"]), ("VK", .pint 0)]))
          realURLPatterns).2 "YouTube").map List.length) = some 12
    ∧ ((dictLookup realURLPatterns "YouTube").map List.length) = some 11 := by
  decide

/-- Claim C4 amended: `load_patterns_from_config` leaves `URL_PATTERNS`
unchanged whenever the failure happens before the merge loop runs — the
file is absent, unreadable or unparsable, or the parsed document is not
a dict; a parsed dict with a malformed (non-iterable) per-service value,
however, fails only after the earlier services have already been
merged. -/
theorem c4_amended (file : ConfigFile) (table : List (String × List PyVal))
    (hfail : file = .unreadable ∨ file = .invalid ∨ file = .absent ∨
      ∃ v, file = .doc v ∧ ∀ fs, v ≠ .pdict fs) :
    loadPatternsFromConfig file table = (false, table) := by
  rcases hfail with h | h | h | ⟨v, hv, hnd⟩
  · subst h; rfl
  · subst h; rfl
  · subst h; rfl
  · rw [hv]
    cases v with
    | pdict fs => exact absurd rfl (hnd fs)
    | pstr s => rfl
    | pint n => rfl
    | pbool b => rfl
    | pnone => rfl
    | plist xs => rfl

/-- Witness for C4: an unparsable file against the real pattern table. -/
theorem c4_witness :
    loadPatternsFromConfig .invalid realURLPatterns = (false, realURLPatterns) :=
  c4_amended .invalid realURLPatterns (Or.inr (Or.inl rfl))

theorem sumEst_cons (e : String × Json) (l : List (String × Json)) :
    sumEst (e :: l) = estimateSize e.2 + sumEst l := by
  simp [sumEst]

theorem sumEst_append_single (l : List (String × Json)) (k : String) (v : Json) :
    sumEst (l ++ [(k, v)]) = sumEst l + estimateSize v := by
  simp [sumEst]

theorem dictLookup_cons_none {α : Type} (e : String × α) (l : List (String × α)) (k : String)
    (h : dictLookup (e :: l) k = none) :
    (e.1 == k) = false ∧ dictLookup l k = none := by
  cases he : (e.1 == k) with
  | true => simp [dictLookup, List.find?, he] at h
  | false => exact ⟨rfl, by simpa [dictLookup, List.find?, he] using h⟩

theorem dictSet_fresh {α : Type} (l : List (String × α)) (k : String) (v : α)
    (h : dictLookup l k = none) : dictSet l k v = l ++ [(k, v)] := by
  have hany : l.any (fun e => e.1 == k) = false := by
    induction l with
    | nil => rfl
    | cons e t ih =>
        obtain ⟨he, ht⟩ := dictLookup_cons_none e t k h
        simp [List.any_cons, he, ih ht]
  unfold dictSet
  rw [if_neg (by rw [hany]; decide)]

theorem dictLookup_append_single {α : Type} (l : List (String × α)) (k k' : String) (v : α)
    (h : dictLookup l k' = none) (hne : k ≠ k') : dictLookup (l ++ [(k, v)]) k' = none := by
  have hbeq : (k == k') = false := by simp [hne]
  induction l with
  | nil => simp [dictLookup, List.find?, hbeq]
  | cons e t ih =>
      obtain ⟨he, ht⟩ := dictLookup_cons_none e t k' h
      simp only [List.cons_append, dictLookup, List.find?, he]
      exact ih ht

theorem evictLoop_sumEq (M : Nat) (mm isz : Int) (c : List (String × Json)) :
    ∀ sz : Int,
      (evictLoop M mm isz c sz).2 - sumEst (evictLoop M mm isz c sz).1 = sz - sumEst c := by
  induction c with
  | nil => intro sz; simp [evictLoop, sumEst]
  | cons e rest ih =>
      intro sz
      by_cases hc : M ≤ rest.length + 1 ∨ mm < sz + isz
      · simp only [evictLoop, if_pos hc]
        rw [ih (sz - estimateSize e.2), sumEst_cons]
        ring
      · simp only [evictLoop, if_neg hc]

theorem evictLoop_post (M : Nat) (mm isz : Int) (c : List (String × Json)) :
    ∀ sz : Int,
      (evictLoop M mm isz c sz).1 = []
        ∨ ((evictLoop M mm isz c sz).1.length < M ∧ (evictLoop M mm isz c sz).2 + isz ≤ mm) := by
  induction c with
  | nil => intro sz; exact Or.inl rfl
  | cons e rest ih =>
      intro sz
      by_cases hc : M ≤ rest.length + 1 ∨ mm < sz + isz
      · simp only [evictLoop, if_pos hc]
        exact ih (sz - estimateSize e.2)
      · simp only [evictLoop, if_neg hc]
        push_neg at hc
        exact Or.inr ⟨by simp only [List.length_cons]; exact hc.1, hc.2⟩

theorem evictLoop_lookup_none (M : Nat) (mm isz : Int) (key : String)
    (c : List (String × Json)) :
    ∀ sz : Int, dictLookup c key = none →
      dictLookup (evictLoop M mm isz c sz).1 key = none := by
  induction c with
  | nil => intro sz h; exact h
  | cons e rest ih =>
      intro sz h
      obtain ⟨_, ht⟩ := dictLookup_cons_none e rest key h
      by_cases hc : M ≤ rest.length + 1 ∨ mm < sz + isz
      · simp only [evictLoop, if_pos hc]
        exact ih _ ht
      · simp only [evictLoop, if_neg hc]
        exact h

theorem applySets_inv (M : Nat) (mm : Int) (hM : 1 ≤ M) (ops : List (String × Json)) :
    ∀ s : VState,
      s.maxSize = M → s.maxMemoryBytes = mm →
      (∀ e ∈ ops, estimateSize e.2 ≤ mm) →
      (ops.map Prod.fst).Nodup →
      (∀ e ∈ ops, dictLookup s.cache e.1 = none) →
      s.sizeBytes = sumEst s.cache →
      s.cache.length ≤ M → s.sizeBytes ≤ mm →
      ((applySets s ops).cache.length ≤ M ∧ (applySets s ops).sizeBytes ≤ mm) := by
  induction ops with
  | nil => intro s _ _ _ _ _ _ hlen hsz; exact ⟨hlen, hsz⟩
  | cons e rest ih =>
      intro s hmsz hmmb hfit hnodup hfresh hsum hlen hsz
      have hisz : estimateSize e.2 ≤ mm := hfit e (List.mem_cons_self e rest)
      have hkey : dictLookup s.cache e.1 = none := hfresh e (List.mem_cons_self e rest)
      have hpfix : evictLoop s.maxSize s.maxMemoryBytes (estimateSize e.2) s.cache s.sizeBytes
          = evictLoop M mm (estimateSize e.2) s.cache s.sizeBytes := by rw [hmsz, hmmb]
      have hplookup : dictLookup
          (evictLoop M mm (estimateSize e.2) s.cache s.sizeBytes).1 e.1 = none :=
        evictLoop_lookup_none M mm (estimateSize e.2) e.1 s.cache s.sizeBytes hkey
      have hcache : (s.setEntry e.1 e.2).cache
          = (evictLoop M mm (estimateSize e.2) s.cache s.sizeBytes).1 ++ [(e.1, e.2)] := by
        show dictSet (evictLoop s.maxSize s.maxMemoryBytes
            (estimateSize e.2) s.cache s.sizeBytes).1 e.1 e.2 = _
        rw [hpfix, dictSet_fresh _ _ _ hplookup]
      have hsize : (s.setEntry e.1 e.2).sizeBytes
          = (evictLoop M mm (estimateSize e.2) s.cache s.sizeBytes).2 + estimateSize e.2 := by
        show (evictLoop s.maxSize s.maxMemoryBytes
            (estimateSize e.2) s.cache s.sizeBytes).2 + estimateSize e.2 = _
        rw [hpfix]
      have hsump : (evictLoop M mm (estimateSize e.2) s.cache s.sizeBytes).2
          = sumEst (evictLoop M mm (estimateSize e.2) s.cache s.sizeBytes).1 := by
        have := evictLoop_sumEq M mm (estimateSize e.2) s.cache s.sizeBytes
        have hz : s.sizeBytes - sumEst s.cache = 0 := by rw [hsum]; ring
        omega
      show ((applySets (s.setEntry e.1 e.2) rest).cache.length ≤ M
          ∧ (applySets (s.setEntry e.1 e.2) rest).sizeBytes ≤ mm)
      apply ih (s.setEntry e.1 e.2)
      · exact hmsz
      · exact hmmb
      · intro x hx; exact hfit x (List.mem_cons_of_mem e hx)
      · exact (List.nodup_cons.mp (by simpa using hnodup)).2
      · intro x hx
        rw [hcache]
        refine dictLookup_append_single _ _ _ _ ?_ ?_
        · exact evictLoop_lookup_none M mm (estimateSize e.2) x.1 s.cache s.sizeBytes
            (hfresh x (List.mem_cons_of_mem e hx))
        · intro hcontra
          have hmem : e.1 ∈ rest.map Prod.fst := by
            rw [hcontra]
            exact List.mem_map_of_mem Prod.fst hx
          exact (List.nodup_cons.mp (by simpa using hnodup)).1 hmem
      · rw [hcache, hsize, sumEst_append_single, hsump]
      · rw [hcache]
        rcases evictLoop_post M mm (estimateSize e.2) s.cache s.sizeBytes with hnil | ⟨hlt, _⟩
        · rw [hnil]
          simpa using hM
        · simp only [List.length_append, List.length_cons, List.length_nil]
          omega
      · rw [hsize]
        rcases evictLoop_post M mm (estimateSize e.2) s.cache s.sizeBytes with hnil | ⟨_, hle⟩
        · rw [hsump, hnil]
          simpa [sumEst] using hisz
        · exact hle

/-- Claim C1 amended: starting from an empty Metadata Cache with
`max_size ≥ 1` and `max_memory_bytes ≥ 0`, after any sequence of
insertions under distinct cache keys each of whose values' estimated
size individually fits the byte budget, the entry count is at most
`max_size` and the tracked byte size at most `max_memory_bytes`.  (A
single oversized value breaks the byte bound — see the counterexample —
and a re-inserted key double-counts its old size, which is why both
hypotheses are needed.) -/
theorem c1_amended (M : Nat) (mm : Int) (lc : ℚ) (ops : List (String × Json))
    (hM : 1 ≤ M) (hmm : 0 ≤ mm)
    (hfit : ∀ e ∈ ops, estimateSize e.2 ≤ mm)
    (hkeys : (ops.map Prod.fst).Nodup) :
    (applySets (emptyVCache M mm lc) ops).cache.length ≤ M
    ∧ (applySets (emptyVCache M mm lc) ops).sizeBytes ≤ mm := by
  apply applySets_inv M mm hM ops (emptyVCache M mm lc) rfl rfl hfit hkeys
  · intro e _; rfl
  · rfl
  · exact Nat.zero_le M
  · exact hmm

/-- Witness for C1 with two small distinct insertions. -/
theorem c1_witness :
    (applySets (emptyVCache 2 100 0) [("k1", Json.str "abc"), ("k2", Json.int 5)]).cache.length ≤ 2
    ∧ (applySets (emptyVCache 2 100 0)
        [("k1", Json.str "abc"), ("k2", Json.int 5)]).sizeBytes ≤ 100 :=
  c1_amended 2 100 0 [("k1", Json.str "abc"), ("k2", Json.int 5)]
    (by decide) (by decide) (by decide) (by decide)

/-- Claim C1 counterexample: a single value whose estimated size (22
bytes) exceeds `max_memory_bytes = 10` is inserted after the eviction
loop empties the cache and breaks out, leaving the tracked byte size
above the bound. -/
theorem c1_counterexample :
    estimateSize (Json.str "aaaaaaaaaaaaaaaaaaaa") = 22
    ∧ (applySets (emptyVCache 2 10 0) [("k", Json.str "aaaaaaaaaaaaaaaaaaaa")]).sizeBytes = 22
    ∧ ¬((applySets (emptyVCache 2 10 0)
        [("k", Json.str "aaaaaaaaaaaaaaaaaaaa")]).sizeBytes ≤ 10)
    ∧ (applySets (emptyVCache 2 10 0) [("k", Json.str "aaaaaaaaaaaaaaaaaaaa")]).cache.length = 1 := by
  decide

/-! Round-trip machinery for the JSON printer and parser (claim C9):
digits, integers, strings, then the mutual structural induction. -/

theorem digitCharFacts (d : Nat) (hd : d < 10) :
    (Char.ofNat (48 + d)).isDigit = true ∧ (Char.ofNat (48 + d)).toNat - 48 = d := by
  interval_cases d <;> exact ⟨by decide, by decide⟩

theorem printNatAux_acc (f : Nat) :
    ∀ (n : Nat) (acc : List Char), printNatAux f n acc = printNatAux f n [] ++ acc := by
  induction f with
  | zero => intro n acc; rfl
  | succ f ih =>
      intro n acc
      by_cases hn : n = 0
      · simp [printNatAux, hn]
      · simp only [printNatAux, if_neg hn]
        rw [ih (n / 10) (Char.ofNat (48 + n % 10) :: acc),
          ih (n / 10) [Char.ofNat (48 + n % 10)]]
        simp

theorem printNatAux_all_digits (f : Nat) :
    ∀ (n : Nat) (acc : List Char), (∀ c ∈ acc, c.isDigit = true) →
      ∀ c ∈ printNatAux f n acc, c.isDigit = true := by
  induction f with
  | zero => intro n acc hacc; exact hacc
  | succ f ih =>
      intro n acc hacc
      by_cases hn : n = 0
      · simpa [printNatAux, hn] using hacc
      · simp only [printNatAux, if_neg hn]
        refine ih (n / 10) _ ?_
        intro c hc
        rcases List.mem_cons.mp hc with h | h
        · rw [h]
          exact (digitCharFacts (n % 10) (Nat.mod_lt n (by omega))).1
        · exact hacc c h

theorem printNatAux_val (f : Nat) :
    ∀ (n a : Nat), n ≤ f →
      List.foldl (fun x c => 10 * x + (c.toNat - 48)) a (printNatAux f n [])
        = a * 10 ^ (printNatAux f n []).length + n := by
  induction f with
  | zero =>
      intro n a hn
      have hz : n = 0 := Nat.le_zero.mp hn
      subst hz
      simp [printNatAux]
  | succ f ih =>
      intro n a hn
      by_cases hn0 : n = 0
      · subst hn0
        simp [printNatAux]
      · simp only [printNatAux, if_neg hn0]
        rw [printNatAux_acc, List.foldl_append]
        have hdivlt : n / 10 < n := Nat.div_lt_self (Nat.pos_of_ne_zero hn0) (by omega)
        rw [ih (n / 10) a (by omega)]
        have hmod := (digitCharFacts (n % 10) (Nat.mod_lt n (by omega))).2
        have hdm : 10 * (n / 10) + n % 10 = n := Nat.div_add_mod n 10
        simp only [List.foldl_cons, List.foldl_nil, List.length_append, List.length_cons,
          List.length_nil, hmod]
        rw [pow_succ]
        generalize (printNatAux f (n / 10) []).length = L
        generalize (10 : Nat) ^ L = P
        calc 10 * (a * P + n / 10) + n % 10
            = a * (P * 10) + (10 * (n / 10) + n % 10) := by ring
          _ = a * (P * 10) + n := by rw [hdm]

theorem parseNatAux_stop (rest : List Char) (a : Nat) (hr : headOkNum rest = true) :
    parseNatAux rest a = (a, rest) := by
  cases rest with
  | nil => rfl
  | cons c cs =>
      simp only [headOkNum, Bool.not_eq_true'] at hr
      simp [parseNatAux, hr]

theorem parseNatAux_digits (ds : List Char) :
    ∀ (rest : List Char) (a : Nat), (∀ c ∈ ds, c.isDigit = true) → headOkNum rest = true →
      parseNatAux (ds ++ rest) a
        = (ds.foldl (fun x c => 10 * x + (c.toNat - 48)) a, rest) := by
  induction ds with
  | nil => intro rest a _ hr; simpa using parseNatAux_stop rest a hr
  | cons c cs ih =>
      intro rest a hd hr
      have hc : c.isDigit = true := hd c (List.mem_cons_self c cs)
      have hstep : parseNatAux ((c :: cs) ++ rest) a
          = parseNatAux (cs ++ rest) (10 * a + (c.toNat - 48)) := by
        simp [parseNatAux, hc]
      rw [hstep, List.foldl_cons]
      exact ih rest (10 * a + (c.toNat - 48)) (fun x hx => hd x (List.mem_cons_of_mem c hx)) hr

theorem printNat_digits (n : Nat) : ∀ c ∈ printNat n, c.isDigit = true := by
  unfold printNat
  by_cases hn : n = 0
  · simp only [if_pos hn]
    intro c hc
    simp only [List.mem_singleton] at hc
    rw [hc]
    decide
  · simp only [if_neg hn]
    exact printNatAux_all_digits (n + 1) n [] (by intro c hc; exact absurd hc (List.not_mem_nil c))

theorem printNat_cons (n : Nat) : ∃ c t, printNat n = c :: t ∧ c.isDigit = true := by
  have hne : printNat n ≠ [] := by
    unfold printNat
    by_cases hn : n = 0
    · simp [hn]
    · simp only [if_neg hn]
      have h1 : printNatAux (n + 1) n []
          = printNatAux n (n / 10) [] ++ [Char.ofNat (48 + n % 10)] := by
        rw [printNatAux, if_neg hn, printNatAux_acc]
      rw [h1]
      simp
  cases h : printNat n with
  | nil => exact absurd h hne
  | cons c t =>
      refine ⟨c, t, rfl, printNat_digits n c ?_⟩
      rw [h]
      exact List.mem_cons_self c t

theorem parse_printNat (n : Nat) (rest : List Char) (hr : headOkNum rest = true) :
    parseNatAux (printNat n ++ rest) 0 = (n, rest) := by
  unfold printNat
  by_cases hn : n = 0
  · subst hn
    rw [if_pos rfl]
    have h0 : ('0').isDigit = true := by decide
    have h1 : 10 * 0 + (('0').toNat - 48) = 0 := by decide
    have hstep : parseNatAux (['0'] ++ rest) 0 = parseNatAux rest 0 := by
      simp [parseNatAux, h0, h1]
    rw [hstep]
    exact parseNatAux_stop rest 0 hr
  · simp only [if_neg hn]
    rw [parseNatAux_digits (printNatAux (n + 1) n []) rest 0
      (printNatAux_all_digits (n + 1) n [] (by intro c hc; exact absurd hc (List.not_mem_nil c)))
      hr]
    rw [printNatAux_val (n + 1) n 0 (by omega)]
    simp

theorem printInt_cons (n : Int) :
    ∃ c t, printInt n = c :: t ∧ (c = '-' ∨ c.isDigit = true) := by
  unfold printInt
  by_cases hn : n < 0
  · exact ⟨'-', printNat (-n).toNat, by simp [hn], Or.inl rfl⟩
  · obtain ⟨c, t, h, hd⟩ := printNat_cons n.toNat
    exact ⟨c, t, by simp [hn, h], Or.inr hd⟩

theorem parse_printInt (n : Int) (rest : List Char) (hr : headOkNum rest = true) :
    parseIntVal (printInt n ++ rest) = some (n, rest) := by
  unfold printInt
  by_cases hn : n < 0
  · simp only [if_pos hn]
    obtain ⟨c, t, hpc, hcd⟩ := printNat_cons (-n).toNat
    have hsplit : printNat (-n).toNat ++ rest = c :: (t ++ rest) := by
      rw [hpc]
      rfl
    simp only [List.cons_append, parseIntVal, if_pos (show ('-' : Char) = '-' from rfl)]
    rw [hsplit]
    simp only [hcd, if_true]
    rw [← hsplit, parse_printNat (-n).toNat rest hr]
    have hcast : -(((-n).toNat : Int)) = n := by omega
    rw [hcast]
  · simp only [if_neg hn]
    obtain ⟨c, t, hpc, hcd⟩ := printNat_cons n.toNat
    have hsplit : printNat n.toNat ++ rest = c :: (t ++ rest) := by
      rw [hpc]
      rfl
    rw [hsplit]
    have hcm : ¬(c = '-') := by
      intro h
      rw [h] at hcd
      exact absurd hcd (by decide)
    simp only [parseIntVal, if_neg hcm, hcd, if_pos, if_true]
    rw [← hsplit, parse_printNat n.toNat rest hr]
    have hcast : ((n.toNat : Int)) = n := by omega
    rw [hcast]

theorem parseStrBody_quote (cs : List Char) : parseStrBody ('"' :: cs) = some ([], cs) := by
  rfl

theorem parseStrBody_esc (d : Char) (cs : List Char) (hd : d = '"' ∨ d = '\\') :
    parseStrBody ('\\' :: d :: cs) = (parseStrBody cs).map (fun p => (d :: p.1, p.2)) := by
  show (if d = '"' ∨ d = '\\' then
        (parseStrBodyAux false cs).map (fun p => (d :: p.1, p.2))
      else none)
    = (parseStrBodyAux false cs).map (fun p => (d :: p.1, p.2))
  exact if_pos hd

theorem parseStrBody_lit (c : Char) (cs : List Char) (h1 : ¬(c = '"')) (h2 : ¬(c = '\\')) :
    parseStrBody (c :: cs) = (parseStrBody cs).map (fun p => (c :: p.1, p.2)) := by
  show (if c = '"' then some ([], cs)
      else if c = '\\' then parseStrBodyAux true cs
      else (parseStrBodyAux false cs).map (fun p => (c :: p.1, p.2)))
    = (parseStrBodyAux false cs).map (fun p => (c :: p.1, p.2))
  rw [if_neg h1, if_neg h2]

theorem parse_escape (cs : List Char) :
    ∀ rest : List Char, parseStrBody (escapeChars cs ++ ('"' :: rest)) = some (cs, rest) := by
  induction cs with
  | nil => intro rest; exact parseStrBody_quote rest
  | cons c cs ih =>
      intro rest
      by_cases hc : c = '"' ∨ c = '\\'
      · have he : escapeChars (c :: cs) ++ ('"' :: rest)
            = '\\' :: c :: (escapeChars cs ++ ('"' :: rest)) := by
          simp [escapeChars, hc]
        rw [he, parseStrBody_esc c _ hc, ih rest]
        rfl
      · push_neg at hc
        have he : escapeChars (c :: cs) ++ ('"' :: rest)
            = c :: (escapeChars cs ++ ('"' :: rest)) := by
          simp [escapeChars, hc.1, hc.2]
        rw [he, parseStrBody_lit c _ hc.1 hc.2, ih rest]
        rfl

theorem headOkNum_printArrRest (t : JsonArr) (rest : List Char) :
    headOkNum (printArrRest t ++ rest) = true := by
  cases t <;> rfl

theorem headOkNum_printObjRest (t : JsonObj) (rest : List Char) :
    headOkNum (printObjRest t ++ rest) = true := by
  cases t <;> rfl

theorem intHead_ne (c : Char) (h : c = '-' ∨ c.isDigit = true) :
    ¬(c = '"') ∧ ¬(c = '[') ∧ ¬(c = '\x7b') ∧ ¬(c = 'n') ∧ ¬(c = 't') ∧ ¬(c = 'f') := by
  rcases h with h | h
  · subst h
    exact ⟨by decide, by decide, by decide, by decide, by decide, by decide⟩
  · refine ⟨?_, ?_, ?_, ?_, ?_, ?_⟩ <;> (intro he; subst he; exact absurd h (by decide))

theorem printJson_head (x : Json) : ∃ c t, printJson x = c :: t ∧ ¬(c = ']') := by
  cases x with
  | null => exact ⟨'n', ['u', 'l', 'l'], rfl, by decide⟩
  | bool b =>
      cases b with
      | true => exact ⟨'t', ['r', 'u', 'e'], rfl, by decide⟩
      | false => exact ⟨'f', ['a', 'l', 's', 'e'], rfl, by decide⟩
  | int n =>
      obtain ⟨c, t, h, hcd⟩ := printInt_cons n
      refine ⟨c, t, h, ?_⟩
      intro he
      subst he
      rcases hcd with h1 | h1
      · exact absurd h1 (by decide)
      · exact absurd h1 (by decide)
  | str s => exact ⟨'"', escapeChars s.data ++ ['"'], rfl, by decide⟩
  | arr xs => exact ⟨'[', printArrItems xs, rfl, by decide⟩
  | obj fs => exact ⟨'\x7b', printObjItems fs, rfl, by decide⟩

theorem parseVal_str (f : Nat) (zs : List Char) :
    parseVal (f + 1) ('"' :: zs)
      = (parseStrBody zs).map (fun p => (Json.str (String.mk p.1), p.2)) := by
  rfl

theorem parseVal_arrCons (f : Nat) (c : Char) (zs : List Char) (hcne : ¬(c = ']')) :
    parseVal (f + 1) ('[' :: c :: zs)
      = (parseVal f (c :: zs)).bind (fun xc =>
          (parseArrRestP f xc.2).map (fun ac =>
            (Json.arr (JsonArr.cons xc.1 ac.1), ac.2))) := by
  show (if c = ']' then some (Json.arr JsonArr.nil, zs)
      else (parseVal f (c :: zs)).bind (fun xc =>
        (parseArrRestP f xc.2).map (fun ac =>
          (Json.arr (JsonArr.cons xc.1 ac.1), ac.2))))
    = (parseVal f (c :: zs)).bind (fun xc =>
        (parseArrRestP f xc.2).map (fun ac =>
          (Json.arr (JsonArr.cons xc.1 ac.1), ac.2)))
  exact if_neg hcne

theorem parseVal_objCons (f : Nat) (zs : List Char) :
    parseVal (f + 1) ('\x7b' :: '"' :: zs)
      = (parseStrBody zs).bind (fun kc =>
          match kc.2 with
          | ':' :: ' ' :: cs4 =>
              (parseVal f cs4).bind (fun vc =>
                (parseObjRestP f vc.2).map (fun oc =>
                  (Json.obj (JsonObj.cons (String.mk kc.1) vc.1 oc.1), oc.2)))
          | _ => none) := by
  rfl

theorem parseVal_int (f : Nat) (c : Char) (zs : List Char) (h : c = '-' ∨ c.isDigit = true) :
    parseVal (f + 1) (c :: zs)
      = (parseIntVal (c :: zs)).map (fun nc => (Json.int nc.1, nc.2)) := by
  show (if c = '-' ∨ c.isDigit = true then
        (parseIntVal (c :: zs)).map (fun nc => (Json.int nc.1, nc.2))
      else if c = '"' then (parseStrBody zs).map (fun p => (Json.str (String.mk p.1), p.2))
      else if c = '[' then
        match zs with
        | [] => none
        | d :: ds =>
            if d = ']' then some (Json.arr JsonArr.nil, ds)
            else
              (parseVal f (d :: ds)).bind (fun xc =>
                (parseArrRestP f xc.2).map (fun ac =>
                  (Json.arr (JsonArr.cons xc.1 ac.1), ac.2)))
      else if c = '\x7b' then
        match zs with
        | '\x7d' :: cs2 => some (Json.obj JsonObj.nil, cs2)
        | '"' :: cs2 =>
            (parseStrBody cs2).bind (fun kc =>
              match kc.2 with
              | ':' :: ' ' :: cs4 =>
                  (parseVal f cs4).bind (fun vc =>
                    (parseObjRestP f vc.2).map (fun oc =>
                      (Json.obj (JsonObj.cons (String.mk kc.1) vc.1 oc.1), oc.2)))
              | _ => none)
        | _ => none
      else if c = 'n' then
        match zs with
        | 'u' :: 'l' :: 'l' :: cs2 => some (Json.null, cs2)
        | _ => none
      else if c = 't' then
        match zs with
        | 'r' :: 'u' :: 'e' :: cs2 => some (Json.bool true, cs2)
        | _ => none
      else if c = 'f' then
        match zs with
        | 'a' :: 'l' :: 's' :: 'e' :: cs2 => some (Json.bool false, cs2)
        | _ => none
      else none)
    = (parseIntVal (c :: zs)).map (fun nc => (Json.int nc.1, nc.2))
  exact if_pos h

theorem parseArrRestP_cons (f : Nat) (zs : List Char) :
    parseArrRestP (f + 1) (',' :: ' ' :: zs)
      = (parseVal f zs).bind (fun xc =>
          (parseArrRestP f xc.2).map (fun ac => (JsonArr.cons xc.1 ac.1, ac.2))) := by
  rfl

theorem parseObjRestP_cons (f : Nat) (zs : List Char) :
    parseObjRestP (f + 1) (',' :: ' ' :: '"' :: zs)
      = (parseStrBody zs).bind (fun kc =>
          match kc.2 with
          | ':' :: ' ' :: cs3 =>
              (parseVal f cs3).bind (fun vc =>
                (parseObjRestP f vc.2).map (fun oc =>
                  (JsonObj.cons (String.mk kc.1) vc.1 oc.1, oc.2)))
          | _ => none) := by
  rfl

mutual

theorem parse_print_val (j : Json) : ∀ (f : Nat) (rest : List Char),
    needJ j ≤ f → headOkNum rest = true →
    parseVal f (printJson j ++ rest) = some (j, rest) := by
  cases j with
  | null =>
      intro f rest hf _
      cases f with
      | zero => exact absurd hf (by simp only [needJ]; omega)
      | succ f0 => rfl
  | bool b =>
      intro f rest hf _
      cases f with
      | zero => exact absurd hf (by simp only [needJ]; omega)
      | succ f0 => cases b <;> rfl
  | int n =>
      intro f rest hf hr
      cases f with
      | zero => exact absurd hf (by simp only [needJ]; omega)
      | succ f0 =>
          obtain ⟨c, tl, hpi, hcd⟩ := printInt_cons n
          have hsplit : printJson (Json.int n) ++ rest = c :: (tl ++ rest) := by
            show printInt n ++ rest = _
            rw [hpi]
            rfl
          have hsplit2 : c :: (tl ++ rest) = printInt n ++ rest := by
            rw [hpi]
            rfl
          rw [hsplit, parseVal_int f0 c (tl ++ rest) hcd, hsplit2,
            parse_printInt n rest hr]
          rfl
  | str s =>
      intro f rest hf _
      cases f with
      | zero => exact absurd hf (by simp only [needJ]; omega)
      | succ f0 =>
          show parseVal (f0 + 1) ('"' :: ((escapeChars s.data ++ ['"']) ++ rest))
            = some (Json.str s, rest)
          rw [parseVal_str f0,
            show (escapeChars s.data ++ ['"']) ++ rest
              = escapeChars s.data ++ ('"' :: rest) from by simp,
            parse_escape s.data rest]
          rfl
  | arr xs =>
      cases xs with
      | nil =>
          intro f rest hf _
          cases f with
          | zero => exact absurd hf (by simp only [needJ]; omega)
          | succ f0 => rfl
      | cons x t =>
          intro f rest hf hr
          cases f with
          | zero => exact absurd hf (by simp only [needJ]; omega)
          | succ f0 =>
              simp only [needJ] at hf
              have hmx : max (needJ x) (needA t) ≤ f0 := by omega
              have hfx : needJ x ≤ f0 := le_trans (Nat.le_max_left _ _) hmx
              have hft : needA t ≤ f0 := le_trans (Nat.le_max_right _ _) hmx
              rcases printJson_head x with ⟨c, tl, hx, hcne⟩
              show parseVal (f0 + 1) ('[' :: ((printJson x ++ printArrRest t) ++ rest))
                = some (Json.arr (JsonArr.cons x t), rest)
              have hcs : (printJson x ++ printArrRest t) ++ rest
                  = c :: (tl ++ (printArrRest t ++ rest)) := by
                rw [hx]
                simp
              have hcs2 : c :: (tl ++ (printArrRest t ++ rest))
                  = printJson x ++ (printArrRest t ++ rest) := by
                rw [hx, List.cons_append]
              rw [hcs, parseVal_arrCons f0 c _ hcne, hcs2]
              rw [parse_print_val x f0 (printArrRest t ++ rest) hfx
                (headOkNum_printArrRest t rest)]
              simp [parse_print_arr t f0 rest hft hr]
  | obj fs =>
      cases fs with
      | nil =>
          intro f rest hf _
          cases f with
          | zero => exact absurd hf (by simp only [needJ]; omega)
          | succ f0 => rfl
      | cons k v t =>
          intro f rest hf hr
          cases f with
          | zero => exact absurd hf (by simp only [needJ]; omega)
          | succ f0 =>
              simp only [needJ] at hf
              have hmx : max (needJ v) (needO t) ≤ f0 := by omega
              have hfv : needJ v ≤ f0 := le_trans (Nat.le_max_left _ _) hmx
              have hft : needO t ≤ f0 := le_trans (Nat.le_max_right _ _) hmx
              show parseVal (f0 + 1)
                  ('\x7b' :: '"' :: (((escapeChars k.data ++ ['"'])
                    ++ (':' :: ' ' :: (printJson v ++ printObjRest t))) ++ rest))
                = some (Json.obj (JsonObj.cons k v t), rest)
              rw [parseVal_objCons f0,
                show ((escapeChars k.data ++ ['"'])
                    ++ (':' :: ' ' :: (printJson v ++ printObjRest t))) ++ rest
                  = escapeChars k.data
                    ++ ('"' :: (':' :: ' ' :: (printJson v ++ (printObjRest t ++ rest))))
                  from by simp,
                parse_escape k.data]
              show (parseVal f0 (printJson v ++ (printObjRest t ++ rest))).bind (fun vc =>
                  (parseObjRestP f0 vc.2).map (fun oc =>
                    (Json.obj (JsonObj.cons (String.mk k.data) vc.1 oc.1), oc.2)))
                = some (Json.obj (JsonObj.cons k v t), rest)
              rw [parse_print_val v f0 (printObjRest t ++ rest) hfv
                (headOkNum_printObjRest t rest)]
              simp [parse_print_obj t f0 rest hft hr]

theorem parse_print_arr (t : JsonArr) : ∀ (f : Nat) (rest : List Char),
    needA t ≤ f → headOkNum rest = true →
    parseArrRestP f (printArrRest t ++ rest) = some (t, rest) := by
  cases t with
  | nil =>
      intro f rest hf _
      cases f with
      | zero => exact absurd hf (by simp only [needA]; omega)
      | succ f0 => rfl
  | cons x t =>
      intro f rest hf hr
      cases f with
      | zero => exact absurd hf (by simp only [needA]; omega)
      | succ f0 =>
          simp only [needA] at hf
          have hmx : max (needJ x) (needA t) ≤ f0 := by omega
          have hfx : needJ x ≤ f0 := le_trans (Nat.le_max_left _ _) hmx
          have hft : needA t ≤ f0 := le_trans (Nat.le_max_right _ _) hmx
          show parseArrRestP (f0 + 1)
              (',' :: ' ' :: ((printJson x ++ printArrRest t) ++ rest))
            = some (JsonArr.cons x t, rest)
          rw [List.append_assoc, parseArrRestP_cons f0]
          rw [parse_print_val x f0 (printArrRest t ++ rest) hfx
            (headOkNum_printArrRest t rest)]
          simp [parse_print_arr t f0 rest hft hr]

theorem parse_print_obj (t : JsonObj) : ∀ (f : Nat) (rest : List Char),
    needO t ≤ f → headOkNum rest = true →
    parseObjRestP f (printObjRest t ++ rest) = some (t, rest) := by
  cases t with
  | nil =>
      intro f rest hf _
      cases f with
      | zero => exact absurd hf (by simp only [needO]; omega)
      | succ f0 => rfl
  | cons k v t =>
      intro f rest hf hr
      cases f with
      | zero => exact absurd hf (by simp only [needO]; omega)
      | succ f0 =>
          simp only [needO] at hf
          have hmx : max (needJ v) (needO t) ≤ f0 := by omega
          have hfv : needJ v ≤ f0 := le_trans (Nat.le_max_left _ _) hmx
          have hft : needO t ≤ f0 := le_trans (Nat.le_max_right _ _) hmx
          show parseObjRestP (f0 + 1)
              (',' :: ' ' :: '"' :: (((escapeChars k.data ++ ['"'])
                ++ (':' :: ' ' :: (printJson v ++ printObjRest t))) ++ rest))
            = some (JsonObj.cons k v t, rest)
          rw [parseObjRestP_cons f0,
            show ((escapeChars k.data ++ ['"'])
                ++ (':' :: ' ' :: (printJson v ++ printObjRest t))) ++ rest
              = escapeChars k.data
                ++ ('"' :: (':' :: ' ' :: (printJson v ++ (printObjRest t ++ rest))))
              from by simp,
            parse_escape k.data]
          show (parseVal f0 (printJson v ++ (printObjRest t ++ rest))).bind (fun vc =>
              (parseObjRestP f0 vc.2).map (fun oc =>
                (JsonObj.cons (String.mk k.data) vc.1 oc.1, oc.2)))
            = some (JsonObj.cons k v t, rest)
          rw [parse_print_val v f0 (printObjRest t ++ rest) hfv
            (headOkNum_printObjRest t rest)]
          simp [parse_print_obj t f0 rest hft hr]

end

/-! The document length (plus one) is enough parsing fuel, which is what
`parseJson` supplies. -/

mutual

theorem needJ_le (j : Json) : needJ j ≤ (printJson j).length + 1 := by
  cases j with
  | null =>
      have hn : needJ Json.null = 1 := rfl
      omega
  | bool b =>
      have hn : needJ (Json.bool b) = 1 := rfl
      omega
  | int n =>
      have hn : needJ (Json.int n) = 1 := rfl
      omega
  | str s =>
      have hn : needJ (Json.str s) = 1 := rfl
      omega
  | arr xs =>
      cases xs with
      | nil =>
          have hn : needJ (Json.arr JsonArr.nil) = 1 := rfl
          omega
      | cons x t =>
          have h1 := needJ_le x
          have h2 := needA_le t
          have hn : needJ (Json.arr (JsonArr.cons x t)) = 1 + max (needJ x) (needA t) := rfl
          have hp : printJson (Json.arr (JsonArr.cons x t))
              = '[' :: (printJson x ++ printArrRest t) := rfl
          rw [hn, hp]
          simp only [List.length_cons, List.length_append]
          have hmx : max (needJ x) (needA t)
              ≤ (printJson x).length + (printArrRest t).length + 1 :=
            Nat.max_le.mpr ⟨by omega, by omega⟩
          omega
  | obj fs =>
      cases fs with
      | nil =>
          have hn : needJ (Json.obj JsonObj.nil) = 1 := rfl
          omega
      | cons k v t =>
          have h1 := needJ_le v
          have h2 := needO_le t
          have hn : needJ (Json.obj (JsonObj.cons k v t)) = 1 + max (needJ v) (needO t) := rfl
          have hp : printJson (Json.obj (JsonObj.cons k v t))
              = '\x7b' :: (printStr k ++ (':' :: ' ' :: (printJson v ++ printObjRest t))) := rfl
          rw [hn, hp]
          simp only [List.length_cons, List.length_append]
          have hmx : max (needJ v) (needO t)
              ≤ (printStr k).length + ((printJson v).length + ((printObjRest t).length + 2)) :=
            Nat.max_le.mpr ⟨by omega, by omega⟩
          omega

theorem needA_le (t : JsonArr) : needA t ≤ (printArrRest t).length + 1 := by
  cases t with
  | nil =>
      have hn : needA JsonArr.nil = 1 := rfl
      omega
  | cons x t =>
      have h1 := needJ_le x
      have h2 := needA_le t
      have hn : needA (JsonArr.cons x t) = 1 + max (needJ x) (needA t) := rfl
      have hp : printArrRest (JsonArr.cons x t)
          = ',' :: ' ' :: (printJson x ++ printArrRest t) := rfl
      rw [hn, hp]
      simp only [List.length_cons, List.length_append]
      have hmx : max (needJ x) (needA t)
          ≤ (printJson x).length + (printArrRest t).length + 1 :=
        Nat.max_le.mpr ⟨by omega, by omega⟩
      omega

theorem needO_le (t : JsonObj) : needO t ≤ (printObjRest t).length + 1 := by
  cases t with
  | nil =>
      have hn : needO JsonObj.nil = 1 := rfl
      omega
  | cons k v t =>
      have h1 := needJ_le v
      have h2 := needO_le t
      have hn : needO (JsonObj.cons k v t) = 1 + max (needJ v) (needO t) := rfl
      have hp : printObjRest (JsonObj.cons k v t)
          = ',' :: ' ' :: (printStr k ++ (':' :: ' ' :: (printJson v ++ printObjRest t))) := rfl
      rw [hn, hp]
      simp only [List.length_cons, List.length_append]
      have hmx : max (needJ v) (needO t)
          ≤ (printStr k).length + ((printJson v).length + ((printObjRest t).length + 2)) :=
        Nat.max_le.mpr ⟨by omega, by omega⟩
      omega

end

theorem objToList_listToObj (l : List (String × Json)) : objToList (listToObj l) = l := by
  induction l with
  | nil => rfl
  | cons e t ih =>
      cases e with
      | mk k v => simp [listToObj, objToList, ih]

/-- Claim C9: `save_to_file` followed by `load_from_file` on the written
content restores exactly the saved mapping — the same keys, each mapped
to the value saved, in the same (recency) order — into whatever cache
instance performs the load, and the load reports success. -/
theorem c9_roundtrip (s t : VState) :
    VState.loadFromFile t (some (VState.saveToFile s)) = (true, { t with cache := s.cache }) := by
  have hfuel : needJ (Json.obj (listToObj s.cache))
      ≤ (printJson (Json.obj (listToObj s.cache))).length + 1 := needJ_le _
  have hparse : parseJson (String.mk (printJson (Json.obj (listToObj s.cache))))
      = some (Json.obj (listToObj s.cache)) := by
    unfold parseJson
    have h := parse_print_val (Json.obj (listToObj s.cache))
      ((printJson (Json.obj (listToObj s.cache))).length + 1) [] hfuel rfl
    rw [List.append_nil] at h
    rw [show (String.mk (printJson (Json.obj (listToObj s.cache)))).length
        = (printJson (Json.obj (listToObj s.cache))).length from rfl]
    rw [show (String.mk (printJson (Json.obj (listToObj s.cache)))).data
        = printJson (Json.obj (listToObj s.cache)) from rfl]
    rw [h]
  show VState.loadFromFile t
      (some (String.mk (printJson (Json.obj (listToObj s.cache))))) = _
  rw [VState.loadFromFile, hparse]
  show (true, { t with cache := objToList (listToObj s.cache) })
    = (true, { t with cache := s.cache })
  rw [objToList_listToObj]

/-- Witness for C6: the amended theorem applied to the example URL of
the claim, on the empty cache at time 0. -/
theorem c6_witness :
    ((pyStartsWith "https://youtube.com/not-a-real-path" "http://"
        || pyStartsWith "https://youtube.com/not-a-real-path" "https://") = true)
    ∧ findService domainTrie "https://youtube.com/not-a-real-path" = "YouTube"
    ∧ "YouTube" ≠ unknownService
    ∧ compiledPatterns.any
        (fun e => e.2.matchUrl "https://youtube.com/not-a-real-path") = false
    ∧ dictLookup emptySCache.cache "https://youtube.com/not-a-real-path" = none
    ∧ (Except.map (fun r => r.1.1)
          (getServiceName "https://youtube.com/not-a-real-path" emptySCache 0) = .ok "YouTube"
      ∧ (isValid "https://youtube.com/not-a-real-path" emptySCache 0).1
          = (false, formatMismatchMsg "YouTube")) :=
  ⟨by decide, by decide, by decide, by decide, rfl,
   c6_amended "https://youtube.com/not-a-real-path" "YouTube" emptySCache 0
     (by decide) (by decide) (by decide) (by decide) rfl⟩

end VDSpec
